import Mathlib

/-!
Verification of the LLM_news daily content bot against its specification.

The Python sources are shallowly embedded: Python `str` values are modelled
as `List Char`, `None`-able values as `Option`, Python `float` arithmetic on
the ranking scores as `ℚ`, and timestamps as integer epoch seconds.
Each definition carries a reference to the source function it embeds.
-/

set_option autoImplicit false

namespace LLMNews

/-- Str is the model of a Python `str`: a list of characters. -/
abbrev Str := List Char

/-- Model of Python `str.isspace` for a single character, as used by
`str.strip()` / `str.split()` (ASCII whitespace plus the usual controls). -/
def isWS (c : Char) : Bool := c.isWhitespace

/-- Model of Python `str.strip()`: drop leading and trailing whitespace. -/
def pyStrip (l : Str) : Str :=
  ((l.dropWhile isWS).reverse.dropWhile isWS).reverse

/-- One step of the word scanner behind `pyWords`: fold a character onto a
pair of (current word, words already found to the right). -/
def wordsStep (c : Char) (p : Str × List Str) : Str × List Str :=
  if isWS c then ([], if p.1.isEmpty then p.2 else p.1 :: p.2)
  else (c :: p.1, p.2)

/-- Word scanner state after processing a string right to left. -/
def pyWordsCore (l : Str) : Str × List Str := l.foldr wordsStep ([], [])

/-- Words of a string in the sense of Python `str.split()` (no argument):
maximal runs of non-whitespace characters, in order. -/
def pyWords (l : Str) : List Str :=
  let p := pyWordsCore l
  if p.1.isEmpty then p.2 else p.1 :: p.2

/-- Join a list of words with single spaces (Python `" ".join(ws)`). -/
def joinWords : List Str → Str
  | [] => []
  | [w] => w
  | w :: ws => w ++ ' ' :: joinWords ws

/-- Join a list of strings with an arbitrary separator (Python `sep.join(ws)`). -/
def joinListSep (sep : Str) : List Str → Str
  | [] => []
  | [w] => w
  | w :: ws => w ++ sep ++ joinListSep sep ws

/-- Model of the whitespace collapsing idiom `" ".join(text.strip().split())`
used throughout the sources (`fetchers/base.py:96`, `pipeline/normalize.py:102`,
`pipeline/normalize.py:122`, `pipeline/summarize.py:55`).  Note `str.split()`
already ignores leading/trailing whitespace, so the `strip()` is redundant. -/
def collapse (l : Str) : Str := joinWords (pyWords l)

/-- Model of Python `str.lower()` (ASCII case mapping; every string the
claims involve is case-mapped only on ASCII letters). -/
def pyLower (l : Str) : Str := l.map Char.toLower

/-- Model of the Python substring test `sub in text` for a non-empty `sub`
given as head and tail. -/
def containsSubNE (s : Char) (ss : Str) : Str → Bool
  | [] => false
  | c :: rest =>
    if (s :: ss).isPrefixOf (c :: rest) then true else containsSubNE s ss rest

/-- Model of the Python substring test `sub in text` (empty `sub` is a
substring of everything). -/
def containsSub (sub text : Str) : Bool :=
  match sub with
  | [] => true
  | s :: ss => containsSubNE s ss text

/-- Fuelled scanner behind `countSub`; each step consumes at least one
character of the text and one unit of fuel, so fuel equal to the text
length is always sufficient. -/
def countSubFuel (s : Char) (ss : Str) : Nat → Str → Nat
  | 0, _ => 0
  | _, [] => 0
  | fuel + 1, c :: rest =>
    if (s :: ss).isPrefixOf (c :: rest) then countSubFuel s ss fuel (rest.drop ss.length) + 1
    else countSubFuel s ss fuel rest

/-- Model of Python `text.count(sub)`: non-overlapping occurrences scanned
left to right (for the empty pattern Python counts `len(text) + 1`). -/
def countSub (sub text : Str) : Nat :=
  match sub with
  | [] => text.length + 1
  | s :: ss => countSubFuel s ss text.length text

/-- Fuelled scanner behind `removeAll` (fuel as in `countSubFuel`). -/
def removeAllFuel (s : Char) (ss : Str) : Nat → Str → Str
  | 0, l => l
  | _, [] => []
  | fuel + 1, c :: rest =>
    if (s :: ss).isPrefixOf (c :: rest) then removeAllFuel s ss fuel (rest.drop ss.length)
    else c :: removeAllFuel s ss fuel rest

/-- Model of Python `text.replace(sub, '')`: remove every non-overlapping
occurrence, scanning left to right; the sources only ever erase non-empty
phrases, and for an empty pattern the text is returned unchanged. -/
def removeAll (sub text : Str) : Str :=
  match sub with
  | [] => text
  | s :: ss => removeAllFuel s ss text.length text

/-- Split at the first occurrence of a non-empty delimiter given as head and
tail: returns the part before it and the part after it. -/
def splitFirstNE (s : Char) (ss : Str) : Str → Option (Str × Str)
  | [] => none
  | c :: rest =>
    if (s :: ss).isPrefixOf (c :: rest) then some ([], rest.drop ss.length)
    else (splitFirstNE s ss rest).map (fun p => (c :: p.1, p.2))

/-- Model of the comma-split-strip-filter idiom
`[kw.strip() for kw in s.split(',') if kw.strip()]` (`config.py:134`),
without lower-casing. -/
def splitCommaStrip (l : Str) : List Str :=
  (l.splitOn ',').filterMap (fun kw =>
    let k := pyStrip kw
    if k = [] then none else some k)

/-- Model of `[kw.strip().lower() for kw in s.split(',') if kw.strip()]`
(`pipeline/filter_rank.py:25`). -/
def parseKeywords (l : Str) : List Str :=
  (l.splitOn ',').filterMap (fun kw =>
    let k := pyStrip kw
    if k = [] then none else some (pyLower k))

/-- Model of the Python slice `l[:n]` where `n` may be negative. -/
def pySliceTo {α : Type} (n : Int) (l : List α) : List α :=
  if 0 ≤ n then l.take n.toNat else l.take (l.length - (-n).toNat)

/-! ## Data model: `storage/models.py` (`PaperCreate`)

`PaperCreate` is the pydantic record produced by normalization and consumed
by the filter/rank pipeline.  Optional timestamps are modelled as integer
epoch seconds. -/

/-- Model of `storage/models.py:92` `PaperCreate`. -/
structure Paper where
  source : Str
  doi : Option Str := none
  arxiv_id : Option Str := none
  title : Str
  authors : List Str
  abstract : Option Str := none
  url : Str
  published_at : Option Int := none
  tags : Option (List Str) := none
  categories : Option (List Str) := none
deriving DecidableEq, Repr, Inhabited

/-- Python truthiness of an `Optional[str]`: `None` and `""` are falsy. -/
def truthyStr (o : Option Str) : Bool :=
  match o with
  | none => false
  | some s => !s.isEmpty

/-- Python truthiness of an `Optional[List[str]]`: `None` and `[]` are falsy. -/
def truthyList (o : Option (List Str)) : Bool :=
  match o with
  | none => false
  | some l => !l.isEmpty

/-- Rendering of an `Optional[str]` inside an f-string: Python formats
`None` as the four characters `None`. -/
def fstrOpt (o : Option Str) : Str :=
  match o with
  | none => "None".toList
  | some s => s

/-! ## Filter & rank pipeline: `pipeline/filter_rank.py`

The pipeline components read a plain configuration dict; the fields below
are named after the keys they model, with the defaults used at the
corresponding `config.get` call sites. -/

/-- Configuration keys read by `ContentFilter`, `PaperRanker` and
`FilterRankPipeline` (`pipeline/filter_rank.py:15`, `:169`, `:318`). -/
structure PipelineConfig where
  KEYWORDS_INCLUDE : Str := []
  KEYWORDS_EXCLUDE : Str := []
  ARXIV_CATEGORIES : Str := []
  SUMMARY_MIN_LENGTH : Int := 50
  MAX_PAPERS_PER_DAY : Int := 5
  MIN_NEWS_QUOTA : Int := 2

/-- The two curated news sources (`pipeline/filter_rank.py:134`, `:342`). -/
def isNewsSource (s : Str) : Bool :=
  s = "tech_news".toList || s = "nasa".toList

/-- Model of `ContentFilter.include_keywords` (`pipeline/filter_rank.py:17`). -/
def includeKeywords (cfg : PipelineConfig) : List Str := parseKeywords cfg.KEYWORDS_INCLUDE

/-- Model of `ContentFilter.exclude_keywords` (`pipeline/filter_rank.py:18`). -/
def excludeKeywords (cfg : PipelineConfig) : List Str := parseKeywords cfg.KEYWORDS_EXCLUDE

/-- The lowercased `f"{paper.title} {paper.abstract}"` text scanned by the
spam, keyword and ranking checks (`pipeline/filter_rank.py:88`, `:111`, `:201`). -/
def filterText (p : Paper) : Str := pyLower (p.title ++ ' ' :: fstrOpt p.abstract)

/-- The fixed spam pattern list of `ContentFilter._is_spam`
(`pipeline/filter_rank.py:91`); the two genuine regexes `www\.` and
`http[s]?://` are compiled to the substring tests they perform. -/
def matchesSpamPattern (text : Str) : Bool :=
  containsSub "buy now".toList text || containsSub "click here".toList text ||
  containsSub "visit our website".toList text || containsSub "special offer".toList text ||
  containsSub "limited time".toList text || containsSub "act now".toList text ||
  containsSub "www.".toList text ||
  (containsSub "http://".toList text || containsSub "https://".toList text) ||
  containsSub "contact us".toList text || containsSub "advertisement".toList text ||
  containsSub "promotional".toList text

/-- The excessive-capitalization test of `ContentFilter._is_spam`
(`pipeline/filter_rank.py:104`): the fraction of uppercase characters
exceeds one half (float division modelled as exact rational division). -/
def upperFracExceedsHalf (t : Str) : Bool :=
  ((t.countP (fun c => c.isUpper) : ℚ) / (t.length : ℚ)) > 1/2

/-- Model of `ContentFilter._is_spam` (`pipeline/filter_rank.py:86`). -/
def isSpam (p : Paper) : Bool :=
  let text := filterText p
  if matchesSpamPattern text then true
  else if p.title.length > 10 && upperFracExceedsHalf p.title then true
  else false

/-- Model of `ContentFilter._passes_quality_check` (`pipeline/filter_rank.py:65`). -/
def passesQualityCheck (cfg : PipelineConfig) (p : Paper) : Bool :=
  if p.title.isEmpty || p.title.length < 10 then false
  else if (match p.abstract with
           | none => true
           | some a => a.isEmpty || (a.length : Int) < cfg.SUMMARY_MIN_LENGTH) then false
  else if p.authors.isEmpty || p.authors.length = 0 then false
  else if isSpam p then false
  else true

/-- Model of `ContentFilter._passes_keyword_filter` (`pipeline/filter_rank.py:109`). -/
def passesKeywordFilter (cfg : PipelineConfig) (p : Paper) : Bool :=
  let text := filterText p
  if (excludeKeywords cfg).any (fun kw => containsSub kw text) then false
  else if (includeKeywords cfg).isEmpty then true
  else (includeKeywords cfg).any (fun kw => containsSub kw text)

/-- Model of `ContentFilter._passes_category_filter` (`pipeline/filter_rank.py:131`). -/
def passesCategoryFilter (cfg : PipelineConfig) (p : Paper) : Bool :=
  if isNewsSource p.source then true
  else
    let allowed := parseKeywords cfg.ARXIV_CATEGORIES
    if allowed.isEmpty then true
    else if !truthyList p.categories then true
    else (p.categories.getD []).any (fun cat => (allowed.map pyLower).contains (pyLower cat))

/-- Model of `ContentFilter._passes_date_filter` (`pipeline/filter_rank.py:152`);
`now` is the value of `datetime.utcnow()` in epoch seconds, the cutoff is 30
days earlier. -/
def passesDateFilter (now : Int) (p : Paper) : Bool :=
  match p.published_at with
  | none => true
  | some t => !(t < now - 30 * 86400)

/-- Model of `ContentFilter._should_include_paper` (`pipeline/filter_rank.py:44`). -/
def shouldIncludePaper (cfg : PipelineConfig) (now : Int) (p : Paper) : Bool :=
  passesQualityCheck cfg p && passesKeywordFilter cfg p &&
    passesCategoryFilter cfg p && passesDateFilter now p

/-- Executable form of `upperFracExceedsHalf`: the rational comparison
`count / len > 1/2` holds exactly when `len < 2 * count` (proved
equivalent below). -/
def upperFracExceedsHalfB (t : Str) : Bool :=
  decide (t.length < 2 * t.countP (fun c => c.isUpper))

/-- Executable form of `isSpam` using `upperFracExceedsHalfB`. -/
def isSpamB (p : Paper) : Bool :=
  let text := filterText p
  if matchesSpamPattern text then true
  else if p.title.length > 10 && upperFracExceedsHalfB p.title then true
  else false

/-- Executable form of `passesQualityCheck` using `isSpamB`. -/
def passesQualityCheckB (cfg : PipelineConfig) (p : Paper) : Bool :=
  if p.title.isEmpty || p.title.length < 10 then false
  else if (match p.abstract with
           | none => true
           | some a => a.isEmpty || (a.length : Int) < cfg.SUMMARY_MIN_LENGTH) then false
  else if p.authors.isEmpty || p.authors.length = 0 then false
  else if isSpamB p then false
  else true

/-- Executable form of `shouldIncludePaper` using `passesQualityCheckB`. -/
def shouldIncludePaperB (cfg : PipelineConfig) (now : Int) (p : Paper) : Bool :=
  passesQualityCheckB cfg p && passesKeywordFilter cfg p &&
    passesCategoryFilter cfg p && passesDateFilter now p

/-- Model of `ContentFilter.filter_papers` (`pipeline/filter_rank.py:27`);
the per-item `try/except` never fires for the total model. -/
def filterPapers (cfg : PipelineConfig) (now : Int) (papers : List Paper) : List Paper :=
  papers.filter (fun p => shouldIncludePaper cfg now p)

/-- Model of `PaperRanker._keyword_score` (`pipeline/filter_rank.py:233`). -/
def keywordScore (cfg : PipelineConfig) (text : Str) : ℚ :=
  let kws := includeKeywords cfg
  if kws.isEmpty then 0.5
  else
    let total : ℚ := kws.length
    let s := kws.foldl (fun acc kw =>
      let count := countSub kw text
      if count > 0 then
        let titleMatches := countSub kw (text.take 200)
        acc + min 1.0 ((count : ℚ) * 0.2 + (titleMatches : ℚ) * 0.3)
      else acc) 0
    s / total

/-- Model of `PaperRanker._recency_score` (`pipeline/filter_rank.py:252`);
`timedelta.days` is floor division of the elapsed seconds by 86400. -/
def recencyScore (now : Int) : Option Int → ℚ
  | none => 0.3
  | some t =>
    let daysOld := (now - t).fdiv 86400
    if daysOld ≤ 1 then 1.0
    else if daysOld ≤ 7 then 0.8
    else if daysOld ≤ 30 then 0.6
    else if daysOld ≤ 90 then 0.4
    else 0.2

/-- Model of `PaperRanker._quality_score` (`pipeline/filter_rank.py:270`). -/
def qualityScore (p : Paper) : ℚ :=
  let s : ℚ := 0.5
  let s := s + (if truthyStr p.abstract && (p.abstract.getD []).length > 200 then 0.2 else 0)
  let s := s + (if !p.authors.isEmpty && p.authors.length > 1
                then min 0.2 ((p.authors.length : ℚ) * 0.05) else 0)
  let s := s + (if truthyStr p.doi then 0.1 else 0)
  min 1.0 s

/-- Model of `PaperRanker._source_score` (`pipeline/filter_rank.py:288`):
dictionary lookup of the lowercased source.  The source dictionary spells
its fourth key `medRxiv` with an uppercase R, so that entry can never match
a lowercased string; it is kept verbatim. -/
def sourceScore (source : Str) : ℚ :=
  let l := pyLower source
  if l = "arxiv".toList then 0.8
  else if l = "crossref".toList then 0.6
  else if l = "biorxiv".toList then 0.7
  else if l = "medRxiv".toList then 0.7
  else 0.5

/-- Model of `PaperRanker._category_score` (`pipeline/filter_rank.py:299`). -/
def categoryScore (categories : Option (List Str)) : ℚ :=
  if !truthyList categories then 0.5
  else
    let preferred : List Str :=
      ["cs.ai".toList, "cs.lg".toList, "cs.cl".toList, "cs.cv".toList, "stat.ml".toList]
    if (categories.getD []).any (fun cat => preferred.contains (pyLower cat)) then 1.0
    else 0.6

/-- The tag boost terms of `PaperRanker._calculate_relevance_score`
(`pipeline/filter_rank.py:225`). -/
def boostTerms : List Str :=
  ["llm".toList, "large language model".toList, "gpt".toList,
   "artificial intelligence".toList, "machine learning".toList]

/-- Model of `PaperRanker._calculate_relevance_score`
(`pipeline/filter_rank.py:197`). -/
def calcRelevanceScore (cfg : PipelineConfig) (now : Int) (p : Paper) : ℚ :=
  let text := filterText p
  let score := keywordScore cfg text * 0.4
  let score := score + recencyScore now p.published_at * 0.2
  let score := score + qualityScore p * 0.2
  let baseSourceScore :=
    if isNewsSource p.source then min 1.0 (sourceScore p.source + 0.15)
    else sourceScore p.source
  let score := score + baseSourceScore * 0.1
  let score := score + categoryScore p.categories * 0.1
  let score :=
    match p.tags with
    | some tags =>
      if !tags.isEmpty &&
         (tags.map pyLower).any (fun tag => boostTerms.any (fun term => containsSub term tag))
      then min 1.0 (score + 0.1) else score
    | none => score
  max 0.0 (min 1.0 score)

/-- Stable insertion of a scored paper into a list sorted by descending
score: the new element goes after existing elements of equal score. -/
def insertDesc (x : Paper × ℚ) : List (Paper × ℚ) → List (Paper × ℚ)
  | [] => [x]
  | y :: ys => if x.2 > y.2 then x :: y :: ys else y :: insertDesc x ys

/-- Model of `ranked.sort(key=lambda x: x[1], reverse=True)`
(`pipeline/filter_rank.py:192`, `:357`): a stable descending sort by score,
implemented as repeated stable insertion. -/
def sortByScoreDesc (l : List (Paper × ℚ)) : List (Paper × ℚ) :=
  l.foldl (fun acc x => insertDesc x acc) []

/-- Model of `PaperRanker.rank_papers` (`pipeline/filter_rank.py:179`);
the per-item `try/except` never fires for the total model. -/
def rankPapers (cfg : PipelineConfig) (now : Int) (papers : List Paper) :
    List (Paper × ℚ) :=
  sortByScoreDesc (papers.map (fun p => (p, calcRelevanceScore cfg now p)))

/-- The extra-news collection loop of `FilterRankPipeline.process_papers`
(`pipeline/filter_rank.py:348`): walk the ranked news items, append those
not already selected, and stop as soon as `needed` have been collected. -/
def pickExtra (currentNews topFst : List Paper) (needed : Int) :
    List (Paper × ℚ) → List (Paper × ℚ) → List (Paper × ℚ)
  | acc, [] => acc
  | acc, (p, s) :: rest =>
    let acc' := if p ∉ currentNews ∧ p ∉ topFst then acc ++ [(p, s)] else acc
    if (acc'.length : Int) ≥ needed then acc' else pickExtra currentNews topFst needed acc' rest

/-- Model of `FilterRankPipeline.process_papers` (`pipeline/filter_rank.py:324`). -/
def processPapers (cfg : PipelineConfig) (now : Int) (papers : List Paper) : List Paper :=
  let filtered := filterPapers cfg now papers
  if filtered.isEmpty then []
  else
    let ranked := rankPapers cfg now filtered
    let top := pySliceTo cfg.MAX_PAPERS_PER_DAY ranked
    let newsItems := ranked.filter (fun ps => isNewsSource ps.1.source)
    let currentNews := (top.filter (fun ps => isNewsSource ps.1.source)).map Prod.fst
    if (currentNews.length : Int) < cfg.MIN_NEWS_QUOTA ∧ !newsItems.isEmpty then
      let needed := cfg.MIN_NEWS_QUOTA - currentNews.length
      let extra := pickExtra currentNews (top.map Prod.fst) needed [] newsItems
      if !extra.isEmpty then
        (pySliceTo cfg.MAX_PAPERS_PER_DAY (sortByScoreDesc (top ++ extra))).map Prod.fst
      else top.map Prod.fst
    else top.map Prod.fst

/-! ## Fetcher record: `fetchers/base.py` (`PaperMetadata`)

The raw per-fetcher record normalization consumes. -/

/-- Model of `fetchers/base.py:11` `PaperMetadata`. -/
structure PaperMetadata where
  title : Str
  authors : List Str
  abstract : Str
  url : Str
  source : Str
  doi : Option Str := none
  arxiv_id : Option Str := none
  published_at : Option Int := none
  categories : Option (List Str) := none
  tags : Option (List Str) := none
deriving DecidableEq, Repr, Inhabited

/-! ## Normalization pipeline: `pipeline/normalize.py` -/

/-- Strip one literal label from the front of a string, then strip
whitespace, as in `title[len(prefix):].strip()` (`pipeline/normalize.py:107`). -/
def stripLabel (p t : Str) : Str :=
  if p.isPrefixOf t then pyStrip (t.drop p.length) else t

/-- Apply `stripLabel` once for each label in order, as the prefix-removal
loops do (`pipeline/normalize.py:105`, `:125`, `:152`). -/
def stripLabels (ps : List Str) (t : Str) : Str :=
  ps.foldl (fun acc p => stripLabel p acc) t

/-- The title labels removed by `_clean_title` (`pipeline/normalize.py:105`). -/
def titleLabels : List Str := ["Title:".toList, "TITLE:".toList, "Paper:".toList]

/-- The abstract labels removed by `_clean_abstract` (`pipeline/normalize.py:125`). -/
def abstractLabels : List Str := ["Abstract:".toList, "ABSTRACT:".toList, "Summary:".toList]

/-- The collapsed, label-stripped title before the length cap
(`pipeline/normalize.py:96` up to line 109). -/
def cleanTitleCore (title : Str) : Str := stripLabels titleLabels (collapse title)

/-- Model of `DataNormalizer._clean_title` (`pipeline/normalize.py:96`). -/
def cleanTitle (title : Str) : Str :=
  if title.isEmpty then []
  else
    let t := cleanTitleCore title
    if t.length > 300 then t.take 297 ++ "...".toList else t

/-- The collapsed, label-stripped abstract before the length cap
(`pipeline/normalize.py:116` up to line 129). -/
def cleanAbstractCore (abstract : Str) : Str := stripLabels abstractLabels (collapse abstract)

/-- Model of `DataNormalizer._clean_abstract` (`pipeline/normalize.py:116`). -/
def cleanAbstract (abstract : Str) : Str :=
  if abstract.isEmpty then []
  else
    let t := cleanAbstractCore abstract
    if t.length > 2000 then t.take 1997 ++ "...".toList else t

/-- The author labels removed by `_normalize_authors` (`pipeline/normalize.py:152`). -/
def authorLabels : List Str :=
  ["Dr.".toList, "Prof.".toList, "Professor".toList, "PhD".toList, "Ph.D.".toList]

/-- Model of `DataNormalizer._normalize_authors` (`pipeline/normalize.py:136`). -/
def normalizeAuthors (authors : List Str) : List Str :=
  (authors.filterMap (fun a =>
    if a.isEmpty then none
    else
      let a := pyStrip a
      if a.isEmpty then none
      else
        let a := stripLabels authorLabels a
        some (if a.length > 100 then a.take 97 ++ "...".toList else a))).take 20

/-- Model of `DataNormalizer._normalize_date` (`pipeline/normalize.py:166`):
a value that is already a timestamp passes through unchanged; the
string-parsing branch cannot arise for the typed model. -/
def normalizeDate (d : Option Int) : Option Int := d

/-- Model of `DataNormalizer._normalize_crossref_subject`
(`pipeline/normalize.py:216`): first mapping key (in insertion order) whose
lowercase form is a substring of the lowercased subject, else the subject
capped at 50 characters. -/
def normalizeCrossrefSubject (subject : Str) : Str :=
  let l := pyLower subject
  if containsSub "computer science".toList l then "cs".toList
  else if containsSub "mathematics".toList l then "math".toList
  else if containsSub "physics".toList l then "physics".toList
  else if containsSub "biology".toList l then "bio".toList
  else if containsSub "medicine".toList l then "med".toList
  else if containsSub "engineering".toList l then "eng".toList
  else if containsSub "statistics".toList l then "stat".toList
  else subject.take 50

/-- Model of `DataNormalizer._normalize_categories` (`pipeline/normalize.py:187`). -/
def normalizeCategories (categories : Option (List Str)) (source : Str) : List Str :=
  match categories with
  | none => []
  | some cats =>
    (cats.filterMap (fun cat =>
      if cat.isEmpty then none
      else
        let cat := pyStrip cat
        if cat.isEmpty then none
        else if source = "arxiv".toList then some cat
        else if source = "crossref".toList then
          let c := normalizeCrossrefSubject cat
          if c.isEmpty then none else some c
        else some (cat.take 50))).take 10

/-- The tag vocabulary of `_extract_tags` (`pipeline/normalize.py:247`). -/
def tagVocabulary : List Str :=
  ["machine learning".toList, "deep learning".toList, "neural network".toList,
   "artificial intelligence".toList, "computer vision".toList,
   "natural language processing".toList, "nlp".toList, "transformers".toList,
   "diffusion".toList, "gan".toList, "generative".toList, "classification".toList,
   "regression".toList, "reinforcement learning".toList, "supervised".toList,
   "unsupervised".toList, "pytorch".toList, "tensorflow".toList]

/-- The arXiv category-to-tag map of `_extract_tags` (`pipeline/normalize.py:263`). -/
def arxivCategoryTag (cat : Str) : Option Str :=
  if !("cs.".toList.isPrefixOf cat) then none
  else if cat = "cs.AI".toList then some "artificial intelligence".toList
  else if cat = "cs.LG".toList then some "machine learning".toList
  else if cat = "cs.CV".toList then some "computer vision".toList
  else if cat = "cs.CL".toList then some "computational linguistics".toList
  else if cat = "cs.NE".toList then some "neural networks".toList
  else none

/-- Model of `DataNormalizer._extract_tags` (`pipeline/normalize.py:235`).
The final `list(set(tags))[:15]` has unspecified ordering in Python; the
model deduplicates with one fixed order, which no proved property depends
on. -/
def extractTags (p : PaperMetadata) : List Str :=
  let tags := match p.tags with
    | some t => if !t.isEmpty then t else []
    | none => []
  let text := pyLower (p.title ++ ' ' :: p.abstract)
  let tags := tags ++ tagVocabulary.filter (fun kw => containsSub kw text)
  let tags := tags ++ (match p.categories with
    | some cats => cats.filterMap arxivCategoryTag
    | none => [])
  tags.dedup.take 15

/-- Model of `DataNormalizer._normalize_url` (`pipeline/normalize.py:277`). -/
def normalizeUrl (url : Str) (doi arxiv_id : Option Str) : Str :=
  if truthyStr doi then "https://doi.org/".toList ++ doi.getD []
  else if truthyStr arxiv_id then "https://arxiv.org/abs/".toList ++ arxiv_id.getD []
  else if !url.isEmpty then url
  else "https://example.com/paper-not-found".toList

/-- The abstract acceptance/synthesis step of `_normalize_single_paper`
(`pipeline/normalize.py:44`-`:65`), given the already-cleaned title and
abstract: news sources synthesize a fallback abstract, other sources drop
the item. -/
def normalizeAbstractStep (source title abstract : Str) : Option Str :=
  let min_required : Nat := if isNewsSource source then 20 else 50
  if abstract.isEmpty || abstract.length < min_required then
    if isNewsSource source then
      let synthesized :=
        if !title.isEmpty then "News: ".toList ++ title
        else "Technology/space news item".toList
      if synthesized.length ≥ min_required then some synthesized
      else some (if !title.isEmpty then (title ++ " - ".toList ++ title).take (20 + 5)
                 else synthesized)
    else none
  else some abstract

/-- Model of `DataNormalizer._normalize_single_paper` (`pipeline/normalize.py:35`);
`none` models the `return None` item-drop paths. -/
def normalizeSinglePaper (p : PaperMetadata) : Option Paper :=
  let title := cleanTitle p.title
  if title.isEmpty || title.length < 10 then none
  else
    match normalizeAbstractStep p.source title (cleanAbstract p.abstract) with
    | none => none
    | some abstract =>
      let authors := normalizeAuthors p.authors
      if authors.isEmpty then none
      else some {
        source := p.source
        doi := p.doi
        arxiv_id := p.arxiv_id
        title := title
        authors := authors
        abstract := some abstract
        url := normalizeUrl p.url p.doi p.arxiv_id
        published_at := normalizeDate p.published_at
        tags := some (extractTags p)
        categories := some (normalizeCategories p.categories p.source) }

/-- Model of `DataNormalizer.normalize_papers` (`pipeline/normalize.py:19`):
per-item failures drop the item and the batch continues. -/
def normalizePapers (papers : List PaperMetadata) : List Paper :=
  papers.filterMap normalizeSinglePaper

/-! ## Content hashing: `hashlib.md5` and `str.encode()`

`PaperMetadata.get_identifier` (`fetchers/base.py:25`) hashes
`title + first author + year` with `hashlib.md5(...).hexdigest()`.  The
external `hashlib.md5` is embedded by its standard algorithm (RFC 1321)
over the UTF-8 encoding of the content string. -/

/-- UTF-8 encoding of one Unicode scalar value, as `str.encode()` produces. -/
def utf8Char (c : Char) : List Nat :=
  let n := c.toNat
  if n < 128 then [n]
  else if n < 2048 then [192 + n / 64, 128 + n % 64]
  else if n < 65536 then [224 + n / 4096, 128 + n / 64 % 64, 128 + n % 64]
  else [240 + n / 262144, 128 + n / 4096 % 64, 128 + n / 64 % 64, 128 + n % 64]

/-- UTF-8 encoding of a string (`content.encode()` in `fetchers/base.py:36`). -/
def utf8Bytes (l : Str) : List Nat := (l.map utf8Char).flatten

/-- The 64 MD5 round constants of RFC 1321. -/
def md5K : List Nat :=
  [0xd76aa478, 0xe8c7b756, 0x242070db, 0xc1bdceee,
   0xf57c0faf, 0x4787c62a, 0xa8304613, 0xfd469501,
   0x698098d8, 0x8b44f7af, 0xffff5bb1, 0x895cd7be,
   0x6b901122, 0xfd987193, 0xa679438e, 0x49b40821,
   0xf61e2562, 0xc040b340, 0x265e5a51, 0xe9b6c7aa,
   0xd62f105d, 0x02441453, 0xd8a1e681, 0xe7d3fbc8,
   0x21e1cde6, 0xc33707d6, 0xf4d50d87, 0x455a14ed,
   0xa9e3e905, 0xfcefa3f8, 0x676f02d9, 0x8d2a4c8a,
   0xfffa3942, 0x8771f681, 0x6d9d6122, 0xfde5380c,
   0xa4beea44, 0x4bdecfa9, 0xf6bb4b60, 0xbebfbc70,
   0x289b7ec6, 0xeaa127fa, 0xd4ef3085, 0x04881d05,
   0xd9d4d039, 0xe6db99e5, 0x1fa27cf8, 0xc4ac5665,
   0xf4292244, 0x432aff97, 0xab9423a7, 0xfc93a039,
   0x655b59c3, 0x8f0ccc92, 0xffeff47d, 0x85845dd1,
   0x6fa87e4f, 0xfe2ce6e0, 0xa3014314, 0x4e0811a1,
   0xf7537e82, 0xbd3af235, 0x2ad7d2bb, 0xeb86d391]

/-- The 64 MD5 per-round left-rotation amounts of RFC 1321. -/
def md5S : List Nat :=
  [7, 12, 17, 22, 7, 12, 17, 22, 7, 12, 17, 22, 7, 12, 17, 22,
   5, 9, 14, 20, 5, 9, 14, 20, 5, 9, 14, 20, 5, 9, 14, 20,
   4, 11, 16, 23, 4, 11, 16, 23, 4, 11, 16, 23, 4, 11, 16, 23,
   6, 10, 15, 21, 6, 10, 15, 21, 6, 10, 15, 21, 6, 10, 15, 21]

/-- Left rotation of a 32-bit word. -/
def rotl32 (x s : Nat) : Nat :=
  ((x <<< s) % 4294967296) ||| (x >>> (32 - s))

/-- Group a chunk of bytes into little-endian 32-bit words. -/
def toWords32 : List Nat → List Nat
  | b0 :: b1 :: b2 :: b3 :: rest => (b0 + 256 * (b1 + 256 * (b2 + 256 * b3))) :: toWords32 rest
  | _ => []

/-- One MD5 round on state `(A, B, C, D)` with message words `M`. -/
def md5Round (M : List Nat) (st : Nat × Nat × Nat × Nat) (i : Nat) :
    Nat × Nat × Nat × Nat :=
  let (A, B, C, D) := st
  let mask := 4294967295
  let F :=
    if i < 16 then (B &&& C) ||| ((B ^^^ mask) &&& D)
    else if i < 32 then (D &&& B) ||| ((D ^^^ mask) &&& C)
    else if i < 48 then B ^^^ C ^^^ D
    else C ^^^ (B ||| (D ^^^ mask))
  let g :=
    if i < 16 then i
    else if i < 32 then (5 * i + 1) % 16
    else if i < 48 then (3 * i + 5) % 16
    else (7 * i) % 16
  let F := (F + A + md5K.getD i 0 + M.getD g 0) % 4294967296
  (D, (B + rotl32 F (md5S.getD i 0)) % 4294967296, B, C)

/-- Process one 64-byte MD5 chunk. -/
def md5Chunk (st : Nat × Nat × Nat × Nat) (chunk : List Nat) :
    Nat × Nat × Nat × Nat :=
  let M := toWords32 chunk
  let (A, B, C, D) := (List.range 64).foldl (md5Round M) st
  ((st.1 + A) % 4294967296, (st.2.1 + B) % 4294967296,
   (st.2.2.1 + C) % 4294967296, (st.2.2.2 + D) % 4294967296)

/-- Little-endian 8-byte encoding of the 64-bit message bit length. -/
def le64Bytes (n : Nat) : List Nat :=
  [n % 256, n / 256 % 256, n / 65536 % 256, n / 16777216 % 256,
   n / 4294967296 % 256, n / 1099511627776 % 256,
   n / 281474976710656 % 256, n / 72057594037927936 % 256]

/-- MD5 padding: a 0x80 byte, zeros to 56 mod 64, then the bit length. -/
def md5Pad (msg : List Nat) : List Nat :=
  let len := msg.length
  let padZeros := (119 - (len % 64)) % 64
  msg ++ 128 :: List.replicate padZeros 0 ++ le64Bytes ((len * 8) % 18446744073709551616)

/-- Fuelled fold of the MD5 chunk function, 64 bytes at a time; each step
consumes 64 characters and one unit of fuel, so fuel equal to the message
length is always sufficient. -/
def md5ProcessFuel (fuel : Nat) (st : Nat × Nat × Nat × Nat) (l : List Nat) :
    Nat × Nat × Nat × Nat :=
  match fuel, l with
  | _, [] => st
  | 0, _ => st
  | fuel + 1, c :: rest =>
    md5ProcessFuel fuel (md5Chunk st ((c :: rest).take 64)) ((c :: rest).drop 64)

/-- Fold the MD5 chunk function over a padded message, 64 bytes at a time. -/
def md5Process (st : Nat × Nat × Nat × Nat) (l : List Nat) : Nat × Nat × Nat × Nat :=
  md5ProcessFuel l.length st l

/-- Little-endian byte serialization of one 32-bit state word. -/
def wordLEBytes (w : Nat) : List Nat :=
  [w % 256, w / 256 % 256, w / 65536 % 256, w / 16777216 % 256]

/-- The 16-byte MD5 digest of a byte message. -/
def md5Digest (msg : List Nat) : List Nat :=
  let st := md5Process (0x67452301, 0xefcdab89, 0x98badcfe, 0x10325476) (md5Pad msg)
  wordLEBytes st.1 ++ wordLEBytes st.2.1 ++ wordLEBytes st.2.2.1 ++ wordLEBytes st.2.2.2

/-- Lowercase hexadecimal digit characters. -/
def hexDigitChar (n : Nat) : Char :=
  "0123456789abcdef".toList.getD n '0'

/-- Two-character lowercase hex rendering of one byte. -/
def byteHex (b : Nat) : Str := [hexDigitChar (b / 16 % 16), hexDigitChar (b % 16)]

/-- A character is a (lowercase) hexadecimal digit. -/
def isHexDigitChar (c : Char) : Bool := c.isDigit || ('a' ≤ c && c ≤ 'f')

/-- Model of `hashlib.md5(bytes).hexdigest()`. -/
def md5Hex (msg : List Nat) : Str := ((md5Digest msg).map byteHex).flatten

/-- Civil (proleptic Gregorian) year of a UTC epoch-second timestamp; this
is `datetime.year` for the datetimes the fetchers construct. -/
def yearOfEpoch (t : Int) : Int :=
  let z := t.fdiv 86400 + 719468
  let era := z.fdiv 146097
  let doe := (z - era * 146097).toNat
  let yoe := (doe - doe / 1460 + doe / 36524 - doe / 146096) / 365
  let doy := doe - (365 * yoe + yoe / 4 - yoe / 100)
  let mp := (5 * doy + 2) / 153
  let m : Int := (mp : Int) + (if mp < 10 then 3 else -9)
  (yoe : Int) + era * 400 + (if m ≤ 2 then 1 else 0)

/-- The `self.authors[0] if self.authors else ''` component of the hash
content (`fetchers/base.py:33`). -/
def identifierFirstAuthor (p : PaperMetadata) : Str :=
  match p.authors with
  | a :: _ => a
  | [] => []

/-- The `str(self.published_at.year)` component of the hash content, empty
when no date is present (`fetchers/base.py:34`). -/
def identifierYearStr (p : PaperMetadata) : Str :=
  match p.published_at with
  | some t => (toString (yearOfEpoch t)).toList
  | none => []

/-- Model of `PaperMetadata.get_identifier` (`fetchers/base.py:25`): the DOI
when truthy, else the arXiv id when truthy, else the MD5 hex digest of
title + first author (or empty) + `str(year)` (when a date is present). -/
def getIdentifier (p : PaperMetadata) : Str :=
  if truthyStr p.doi then p.doi.getD []
  else if truthyStr p.arxiv_id then p.arxiv_id.getD []
  else md5Hex (utf8Bytes (p.title ++ identifierFirstAuthor p ++ identifierYearStr p))

/-- Model of `PaperMetadata.get_identifier_type` (`fetchers/base.py:38`). -/
def getIdentifierType (p : PaperMetadata) : Str :=
  if truthyStr p.doi then "doi".toList
  else if truthyStr p.arxiv_id then "arxiv_id".toList
  else "hash".toList

/-! ## Seen-paper ledger: `storage/db.py` (`SeenPaperRepository`)

The `seen_papers` table is modelled as an insertion-ordered list of rows;
its `identifier` column carries a unique index (`storage/models.py:72`), so
an insert commits exactly when no existing row has the same identifier and
raises `IntegrityError` otherwise. -/

/-- Model of `storage/models.py:152` `SeenPaperCreate`. -/
structure SeenPaperCreate where
  identifier : Str
  identifier_type : Str
  source : Str
  paper_id : Option Int := none

/-- Model of a `SeenPaper` table row (`storage/models.py:67`); the
database-generated `id` and `seen_at` columns play no role in the claims. -/
structure SeenPaperRow where
  identifier : Str
  identifier_type : Str
  source : Str
  paper_id : Option Int := none
deriving DecidableEq, Repr

/-- The `seen_papers` table contents, in insertion order. -/
abbrev SeenStore := List SeenPaperRow

/-- Model of `SeenPaperRepository.get_seen_paper` (`storage/db.py:164`):
`.filter(identifier == x).first()`. -/
def getSeenPaper (db : SeenStore) (identifier : Str) : Option SeenPaperRow :=
  db.find? (fun r => r.identifier == identifier)

/-- Model of `SeenPaperRepository.is_paper_seen` (`storage/db.py:169`). -/
def isPaperSeen (db : SeenStore) (identifier : Str) : Bool :=
  (getSeenPaper db identifier).isSome

/-- Model of `SeenPaperRepository.mark_as_seen` (`storage/db.py:142`):
insert and commit; a uniqueness conflict raises `IntegrityError`, which is
caught, the transaction rolled back (store unchanged) and the existing row
returned via `get_seen_paper`. -/
def markAsSeen (db : SeenStore) (d : SeenPaperCreate) : SeenStore × Option SeenPaperRow :=
  let row : SeenPaperRow :=
    { identifier := d.identifier, identifier_type := d.identifier_type,
      source := d.source, paper_id := d.paper_id }
  if db.any (fun r => r.identifier == d.identifier) then
    (db, getSeenPaper db d.identifier)
  else
    (db ++ [row], some row)

/-! ## Configuration list parsing: `config.py` -/

/-- Model of `Config._get_list` (`config.py:125`) with the default `None`
(hence `','.join(default) = ''`): `os.getenv` yields the environment value
or `''`; an empty value returns the default `[]`; otherwise the value is
comma-split, stripped and filtered — with no lower-casing. -/
def pyGetList (env : Option Str) : List Str :=
  match env with
  | none => []
  | some v => if v.isEmpty then [] else splitCommaStrip v

/-- Model of `Config.get_keywords_include` (`config.py:202`), as a function
of the `KEYWORDS_INCLUDE` environment value. -/
def getKeywordsInclude (env : Option Str) : List Str := pyGetList env

/-- Model of `Config.get_keywords_exclude` (`config.py:206`), as a function
of the `KEYWORDS_EXCLUDE` environment value. -/
def getKeywordsExclude (env : Option Str) : List Str := pyGetList env

/-! ## Daily pipeline, zero-fetch path: `app.py`

`run_daily_pipeline` (`app.py:99`) runs its body inside one `try`; the
zero-fetch branch (`app.py:113`) evaluates
`self.discord_poster.post_embeds([self.discord_poster.formatter.format_no_papers_embed()])`.
Python resolves the `post_embeds` attribute on the `DiscordPoster` before
evaluating the argument; a missing attribute raises `AttributeError`, which
the top-level handler (`app.py:202`) turns into a failure result. -/

/-- The attribute names a `DiscordPoster` instance actually has: the
instance attributes assigned in `__init__` and the methods of the class
(`delivery/discord_post.py:281`-`:375`). -/
def discordPosterAttrs : List Str :=
  ["config".toList, "formatter".toList, "dry_run".toList, "poster".toList,
   "method".toList, "post_papers".toList, "post_error".toList,
   "test_connection".toList, "post_test_message".toList]

/-- The attribute names a `DiscordFormatter` instance actually has
(`delivery/formatter.py:12`-`:293`). -/
def discordFormatterAttrs : List Str :=
  ["config".toList, "timezone".toList, "max_title_length".toList,
   "max_description_length".toList, "max_field_value_length".toList,
   "format_papers_as_embeds".toList, "_create_paper_embed".toList,
   "_create_header_embed".toList, "_create_no_papers_embed".toList,
   "_format_title".toList, "_format_description".toList,
   "_format_authors".toList, "_format_source".toList, "_format_tags".toList,
   "_get_source_color".toList, "_get_current_time_str".toList,
   "_get_current_date_str".toList, "format_error_embed".toList,
   "format_test_embed".toList]

/-- The structured result `run_daily_pipeline` always returns
(`app.py:116`, `:140`, `:163`, `:184`, `:193`, `:213`); `discord_result`
and `runtime_seconds` carry no information the claims need. -/
structure RunResult where
  success : Bool
  error : Option Str := none
  papers_fetched : Nat
  papers_processed : Nat
deriving Repr, DecidableEq

/-- Evaluation of the zero-fetch branch body (`app.py:115`-`:122`) as an
exception-or-result value: the branch first resolves `post_embeds` on the
poster, then `format_no_papers_embed` on the formatter, and on success
would return the success result with zero counts. -/
def emptyFetchBranch : Except Str RunResult :=
  if !(discordPosterAttrs.contains "post_embeds".toList) then
    .error "AttributeError: 'DiscordPoster' object has no attribute 'post_embeds'".toList
  else if !(discordFormatterAttrs.contains "format_no_papers_embed".toList) then
    .error "AttributeError: 'DiscordFormatter' object has no attribute 'format_no_papers_embed'".toList
  else
    .ok { success := true, papers_fetched := 0, papers_processed := 0 }

/-- Model of `run_daily_pipeline` (`app.py:99`) restricted to runs in which
the fetch step returns zero papers: the zero-fetch branch runs inside the
top-level `try`, whose handler (`app.py:202`-`:220`) posts an error embed
and returns a failure result with zero counts. -/
def runDailyPipelineEmptyFetch : RunResult :=
  match emptyFetchBranch with
  | .ok r => r
  | .error e =>
    { success := false, error := some e, papers_fetched := 0, papers_processed := 0 }

/-! ## Summarization subsystem: `pipeline/summarize.py` -/

/-- Split at the first occurrence of a non-empty delimiter: the part before
and the part after.  (The sources never use an empty delimiter; for
completeness it reports no occurrence.) -/
def splitFirst (delim : Str) (l : Str) : Option (Str × Str) :=
  match delim with
  | [] => none
  | s :: ss => splitFirstNE s ss l

/-- Fuelled scanner behind `subPair`: each iteration consumes at least the
two delimiter occurrences from the text, so fuel equal to the text length
is always sufficient. -/
def subPairFuel (delim : Str) : Nat → Str → Str
  | 0, l => l
  | fuel + 1, l =>
    match splitFirst delim l with
    | none => l
    | some (pre, rest) =>
      match splitFirst delim rest with
      | none => l
      | some (mid, after) => pre ++ mid ++ subPairFuel delim fuel after

/-- Model of `re.sub(r'D(.*?)D', r'\1', text)` for a literal delimiter `D`
on newline-free text (the markdown-marker removals of
`BaseSummarizer._clean_text`, `pipeline/summarize.py:58`-`:60`): each
leftmost delimiter pair is removed, its content kept, and scanning resumes
after the match. -/
def subPair (delim l : Str) : Str := subPairFuel delim l.length l

/-- The label phrases removed by `BaseSummarizer._clean_text`
(`pipeline/summarize.py:63`). -/
def unwantedPhrases : List Str :=
  ["TL;DR:".toList, "TLDR:".toList, "สรุป:".toList, "Summary:".toList,
   "Abstract:".toList, "บทคัดย่อ:".toList, "ข่าวสรุป:".toList]

/-- Model of `BaseSummarizer._clean_text` (`pipeline/summarize.py:49`):
collapse whitespace, strip bold/italic/code markers, then remove each label
phrase (all occurrences) followed by a strip. -/
def sumCleanText (text : Str) : Str :=
  if text.isEmpty then []
  else
    let text := collapse text
    let text := subPair "**".toList text
    let text := subPair "*".toList text
    let text := subPair "`".toList text
    unwantedPhrases.foldl (fun t p => pyStrip (removeAll p t)) text

/-- Case-insensitive literal match at the start of a string (the patterns
are lowercase literals compiled with `re.IGNORECASE`). -/
def ciAtStart (pat l : Str) : Bool := pyLower (l.take pat.length) = pat

/-- Lazy capture `(.*?)[\.\,]` of the clause-extraction regexes: characters
up to the first `.` or `,`, failing if a newline (which `.` cannot match)
or the end of the text intervenes. -/
def captureUpto : Str → Option Str
  | [] => none
  | c :: rest =>
    if c = '.' || c = ',' then some []
    else if c = '\n' then none
    else (captureUpto rest).map (fun l => c :: l)

/-- Attempt of one clause pattern `kw[s]?\s+(.*?)[\.\,]` at the start of
`l`: the literal (case-insensitively), an optional `s`, at least one
whitespace character (taken greedily), then the lazy capture.  Shrinking
the greedy runs can never rescue a failed attempt (the follow-up characters
are letters, not digits or whitespace), so this is the exact match
semantics. -/
def clauseAt (kw : Str) (optS : Bool) (l : Str) : Option Str :=
  if ciAtStart kw l then
    let t := l.drop kw.length
    let t := if optS then
        match t with
        | c :: r => if c.toLower = 's' then r else t
        | [] => t
      else t
    if (t.takeWhile isWS).isEmpty then none
    else captureUpto (t.dropWhile isWS)
  else none

/-- Leftmost search of one clause pattern over the text (`re.search`). -/
def clauseSearch (kw : Str) (optS : Bool) : Str → Option Str
  | [] => none
  | c :: rest =>
    match clauseAt kw optS (c :: rest) with
    | some cap => some cap
    | none => clauseSearch kw optS rest

/-- Try clause patterns in order; the first whose search succeeds yields
`group(1).strip()[:100]`, as in `_extract_problem` / `_extract_method` /
`_extract_results` (`pipeline/summarize.py:178`, `:195`, `:212`). -/
def extractClause : List (Str × Bool) → Str → Str
  | [], _ => []
  | (kw, optS) :: rest, abstract =>
    match clauseSearch kw optS abstract with
    | some cap => (pyStrip cap).take 100
    | none => extractClause rest abstract

/-- Model of `RuleBasedSummarizer._extract_problem` (`pipeline/summarize.py:178`). -/
def extractProblem (abstract : Str) : Str :=
  extractClause
    [("problem".toList, true), ("challenge".toList, true),
     ("issue".toList, true), ("difficulty".toList, false)] abstract

/-- Model of `RuleBasedSummarizer._extract_method` (`pipeline/summarize.py:195`). -/
def extractMethod (abstract : Str) : Str :=
  extractClause
    [("we propose".toList, false), ("we present".toList, false),
     ("we introduce".toList, false), ("our method".toList, false),
     ("approach".toList, false)] abstract

/-- Model of `RuleBasedSummarizer._extract_results` (`pipeline/summarize.py:212`). -/
def extractResults (abstract : Str) : Str :=
  extractClause
    [("results show".toList, false), ("we show".toList, false),
     ("demonstrate".toList, true), ("achieve".toList, true),
     ("improve".toList, true)] abstract

/-- Model of `RuleBasedSummarizer._extract_main_topic`
(`pipeline/summarize.py:229`): first mapping key (in insertion order) found
in the lowercased title, else the fixed default. -/
def extractMainTopic (title : Str) : Str :=
  let l := pyLower title
  if containsSub "machine learning".toList l then "การเรียนรู้ของเครื่อง".toList
  else if containsSub "deep learning".toList l then "การเรียนรู้เชิงลึก".toList
  else if containsSub "neural network".toList l then "โครงข่ายประสาทเทียม".toList
  else if containsSub "computer vision".toList l then "การมองเห็นด้วยคอมพิวเตอร์".toList
  else if containsSub "natural language".toList l then "การประมวลผลภาษาธรรมชาติ".toList
  else if containsSub "artificial intelligence".toList l then "ปัญญาประดิษฐ์".toList
  else if containsSub "diffusion".toList l then "แบบจำลอง Diffusion".toList
  else if containsSub "transformers".toList l then "โมเดล Transformers".toList
  else "เทคโนโลยี AI".toList

/-- Leftmost search of `(\d+)%?\s*(improvement|better|increase|decrease)`
(`pipeline/summarize.py:253`): at each digit, take the maximal digit run,
an optional percent sign, a greedy whitespace run, then one of the four
words case-insensitively.  Shrinking the greedy runs can never rescue a
failed attempt, so this is the exact match semantics; the returned value is
`group(1)`, the digit run. -/
def percentSearch : Str → Option Str
  | [] => none
  | c :: rest =>
    if c.isDigit then
      let digits := (c :: rest).takeWhile Char.isDigit
      let t := (c :: rest).dropWhile Char.isDigit
      let t := match t with
        | '%' :: r => r
        | _ => t
      let t := t.dropWhile isWS
      if ciAtStart "improvement".toList t || ciAtStart "better".toList t ||
         ciAtStart "increase".toList t || ciAtStart "decrease".toList t then
        some digits
      else percentSearch rest
    else percentSearch rest

/-- Case-insensitive literal containment (`re.search` of a literal pattern
compiled with `re.IGNORECASE`). -/
def ciContains (pat l : Str) : Bool := containsSub pat (pyLower l)

/-- Model of `RuleBasedSummarizer._extract_key_result`
(`pipeline/summarize.py:250`). -/
def extractKeyResult (abstract : Str) : Str :=
  match percentSearch abstract with
  | some g => "ปรับปรุงประสิทธิภาพได้ ".toList ++ g ++ "%".toList
  | none =>
    if ciContains "outperform".toList abstract || ciContains "better than".toList abstract ||
       ciContains "superior to".toList abstract then
      "ให้ผลลัพธ์ที่ดีกว่าวิธีเดิม".toList
    else []

/-- The source label map of `_create_template_summary`
(`pipeline/summarize.py:141`): `.get(source.lower(), source)`. -/
def summarySourceText (source : Str) : Str :=
  let l := pyLower source
  if l = "arxiv".toList then "arXiv".toList
  else if l = "crossref".toList then "วารสารวิชาการ".toList
  else if l = "biorxiv".toList then "bioRxiv".toList
  else if l = "medrxiv".toList then "medRxiv".toList
  else source

/-- Model of `RuleBasedSummarizer._create_template_summary`
(`pipeline/summarize.py:103`); the `key_concepts` computed at line 107 are
never used by the source and are omitted. -/
def createTemplateSummary (title abstract : Str) (authors : List Str) (source : Str) : Str :=
  let problem := extractProblem abstract
  let method := extractMethod abstract
  let results := extractResults abstract
  let opening :=
    if !authors.isEmpty then
      let authorText := joinListSep ", ".toList (authors.take 2)
      let authorText := if authors.length > 2 then authorText ++ " และคณะ".toList else authorText
      "นักวิจัยจาก ".toList ++ authorText
    else "นักวิจัย".toList
  let parts : List Str :=
    [opening, "ได้นำเสนองานวิจัยเรื่อง \"".toList ++ title ++ "\"".toList] ++
    (if !problem.isEmpty then ["ซึ่งเป็นการแก้ปัญหา".toList ++ problem] else []) ++
    (if !method.isEmpty then ["โดยใช้วิธี".toList ++ method] else []) ++
    [if !results.isEmpty then "ผลการวิจัยพบว่า".toList ++ results
     else "งานวิจัยนี้มีศักยภาพในการนำไปประยุกต์ใช้ในอนาคต".toList] ++
    ["งานวิจัยนี้ถูกเผยแพร่ใน ".toList ++ summarySourceText source]
  joinWords parts ++ ".".toList

/-- Model of `RuleBasedSummarizer._create_template_tldr`
(`pipeline/summarize.py:152`). -/
def createTemplateTldr (title abstract : Str) : Str :=
  let keyResult := extractKeyResult abstract
  if !keyResult.isEmpty then
    "งานวิจัยใหม่เกี่ยวกับ ".toList ++ extractMainTopic title ++ " ".toList ++ keyResult
  else
    "งานวิจัยใหม่ในสาขา ".toList ++ extractMainTopic title ++ " ที่น่าสนใจ".toList

/-- Model of `storage/models.py:168` `SummaryResponse`. -/
structure SummaryResponse where
  summary_thai : Str
  tldr_thai : Str
  word_count : Nat
deriving Repr, DecidableEq

/-- Model of `RuleBasedSummarizer._create_fallback_summary`
(`pipeline/summarize.py:263`). -/
def fallbackSummary (p : Paper) : SummaryResponse :=
  let summary :=
    "งานวิจัยเรื่อง \"".toList ++ p.title ++
    "\" เป็นการศึกษาที่น่าสนใจในสาขาเทคโนโลยี โดยนำเสนอแนวทางใหม่ในการแก้ปัญหาที่เกี่ยวข้อง งานวิจัยนี้มีศักยภาพในการนำไปประยุกต์ใช้ในอนาคต".toList
  { summary_thai := summary
    tldr_thai := "งานวิจัยใหม่ที่น่าสนใจในสาขาเทคโนโลยี".toList
    word_count := (pyWords summary).length }

/-- Model of `RuleBasedSummarizer.summarize` (`pipeline/summarize.py:77`):
build the template summary and TL;DR, clean both, report the cleaned
summary's whitespace-token count.  A `None` abstract makes the regex
helpers raise, which the handler at line 98 converts into the fallback
summary. -/
def ruleBasedSummarize (p : Paper) : SummaryResponse :=
  match p.abstract with
  | none => fallbackSummary p
  | some abstract =>
    let authors := p.authors.take 3
    let summary := createTemplateSummary p.title abstract authors p.source
    let tldr := createTemplateTldr p.title abstract
    let summary := sumCleanText summary
    let tldr := sumCleanText tldr
    { summary_thai := summary
      tldr_thai := tldr
      word_count := (pyWords summary).length }

/-- The three summarizer strategies the factory can return. -/
inductive SummarizerKind where
  | openaiBacked
  | anthropicBacked
  | ruleBased
deriving DecidableEq, Repr

/-- Model of `SummarizerFactory.create_summarizer` (`pipeline/summarize.py:502`):
the availability flags model the module-level `OPENAI_AVAILABLE` /
`ANTHROPIC_AVAILABLE` import results; the LLM adapters' constructors raise
when their library is unavailable or their API key is falsy
(`pipeline/summarize.py:281`-`:286`, `:393`-`:398`), and the factory
catches any constructor exception and falls back to the rule-based
summarizer. -/
def createSummarizer (openaiAvailable anthropicAvailable : Bool)
    (mode : Option Str) (openaiKey anthropicKey : Option Str) : SummarizerKind :=
  let m := match mode with
    | none => "rule_based".toList
    | some s => pyLower s
  if m = "openai".toList && openaiAvailable then
    if truthyStr openaiKey then .openaiBacked else .ruleBased
  else if m = "anthropic".toList && anthropicAvailable then
    if truthyStr anthropicKey then .anthropicBacked else .ruleBased
  else .ruleBased

/-! ## Concrete inputs for the news-quota analysis -/

/-- A pipeline configuration with empty keyword lists, a daily cap of one
paper and the default news quota of two, used to exercise the quota pass of
`process_papers`. -/
def c2Cfg : PipelineConfig :=
  { KEYWORDS_INCLUDE := [], KEYWORDS_EXCLUDE := [], ARXIV_CATEGORIES := [],
    SUMMARY_MIN_LENGTH := 50, MAX_PAPERS_PER_DAY := 1, MIN_NEWS_QUOTA := 2 }

/-- A 66-character abstract that passes the quality check under
`SUMMARY_MIN_LENGTH = 50` and matches no spam pattern. -/
def c2Abstract : Str :=
  "a detailed look at reliable machine learning systems in production".toList

/-- A published-today `tech_news` item. -/
def c2News1 : Paper :=
  { source := "tech_news".toList, title := "advances in orbital telescopes".toList,
    authors := ["Ann Author".toList], abstract := some c2Abstract,
    url := "u1".toList, published_at := some 0 }

/-- A second published-today `tech_news` item. -/
def c2News2 : Paper :=
  { source := "tech_news".toList, title := "robotic exploration of deep caves".toList,
    authors := ["Ann Author".toList], abstract := some c2Abstract,
    url := "u2".toList, published_at := some 0 }

/-- The two-item input pool for the quota analysis: both items are news. -/
def c2Papers : List Paper := [c2News1, c2News2]

/-! ## General lemmas about the string primitives -/

theorem dropWhile_eq_self_of_head {p : Char → Bool} {l : Str}
    (h : ∀ c, l.head? = some c → p c = false) : l.dropWhile p = l := by
  cases l with
  | nil => rfl
  | cons c t => simp [List.dropWhile_cons, h c rfl]

theorem head_dropWhile_false {p : Char → Bool} (x : Str) (c : Char)
    (hc : (x.dropWhile p).head? = some c) : p c = false := by
  have hne : x.dropWhile p ≠ [] := by
    intro h; rw [h] at hc; simp at hc
  have h2 := List.head_dropWhile_not p x hne
  have h3 := List.head?_eq_head (l := x.dropWhile p) hne
  rw [h3] at hc
  rw [Option.some_inj.mp hc] at h2
  exact h2

theorem pyStrip_pyStrip (l : Str) : pyStrip (pyStrip l) = pyStrip l := by
  unfold pyStrip
  generalize ha' : l.dropWhile isWS = a
  have haHead : ∀ c, a.head? = some c → isWS c = false := by
    intro c hc
    exact head_dropWhile_false l c (by rw [ha']; exact hc)
  generalize hb' : a.reverse.dropWhile isWS = b
  have hbHead : ∀ c, b.head? = some c → isWS c = false := by
    intro c hc
    exact head_dropWhile_false a.reverse c (by rw [hb']; exact hc)
  have hpre : ∃ t, b.reverse ++ t = a := by
    obtain ⟨t, ht⟩ := List.dropWhile_suffix (l := a.reverse) isWS
    rw [hb'] at ht
    have : a = b.reverse ++ t.reverse := by
      have h := congrArg List.reverse ht
      simpa using h.symm
    exact ⟨t.reverse, this.symm⟩
  have step1 : b.reverse.dropWhile isWS = b.reverse := by
    apply dropWhile_eq_self_of_head
    intro c hc
    obtain ⟨t, ht⟩ := hpre
    apply haHead c
    rw [← ht]
    cases hbr : b.reverse with
    | nil => rw [hbr] at hc; simp at hc
    | cons x xs =>
      rw [hbr] at hc
      simp only [List.head?_cons, Option.some_inj] at hc
      simp [hc]
  rw [step1, List.reverse_reverse, dropWhile_eq_self_of_head hbHead]

/-! ## Claim C1 -/

/-- C1: the claim states that a daily-pipeline run whose fetch step returns
zero papers posts a single "no papers" embed and returns a success result
with zero counts.  The code cannot do this: `DiscordPoster` has no
`post_embeds` attribute and `DiscordFormatter` has no
`format_no_papers_embed` attribute, so the zero-fetch branch raises
`AttributeError` and falls through to the generic exception path, returning
`success = false` (with `papers_fetched = 0` and `papers_processed = 0`). -/
theorem C1_empty_fetch_hits_exception_path :
    runDailyPipelineEmptyFetch.success = false ∧
    runDailyPipelineEmptyFetch.papers_fetched = 0 ∧
    runDailyPipelineEmptyFetch.papers_processed = 0 ∧
    discordPosterAttrs.contains "post_embeds".toList = false ∧
    discordFormatterAttrs.contains "format_no_papers_embed".toList = false := by
  decide

/-! ## Claim C4 -/

theorem countP_le_one_of_nodup_identifiers (db : SeenStore) (x : Str)
    (h : (db.map (fun r => r.identifier)).Nodup) :
    db.countP (fun r => r.identifier == x) ≤ 1 := by
  induction db with
  | nil => simp
  | cons r t ih =>
    simp only [List.map_cons, List.nodup_cons] at h
    rw [List.countP_cons]
    by_cases hr : r.identifier = x
    · have hzero : t.countP (fun r => r.identifier == x) = 0 := by
        rw [List.countP_eq_zero]
        intro a ha hax
        apply h.1
        rw [hr, ← beq_iff_eq.mp hax]
        exact List.mem_map_of_mem _ ha
      simp [hzero, hr]
    · have hbf : (r.identifier == x) = false := by
        simpa using hr
      simpa [hbf] using ih h.2

/-- C4: marking the same identifier as seen twice does not raise, leaves
exactly one row for that identifier (the second call leaves the store
unchanged and returns the existing row), `is_paper_seen` then holds for
that identifier, and fails for any identifier never marked.  The store is
assumed to satisfy the table's uniqueness invariant on `identifier`. -/
theorem C4_mark_as_seen_idempotent (db : SeenStore) (d : SeenPaperCreate)
    (hinv : (db.map (fun r => r.identifier)).Nodup) :
    (markAsSeen (markAsSeen db d).1 d).1.countP
        (fun r => r.identifier == d.identifier) = 1 ∧
    (markAsSeen (markAsSeen db d).1 d).1 = (markAsSeen db d).1 ∧
    (∃ r, (markAsSeen (markAsSeen db d).1 d).2 = some r ∧
        r.identifier = d.identifier) ∧
    isPaperSeen (markAsSeen (markAsSeen db d).1 d).1 d.identifier = true ∧
    (∀ idOther, idOther ≠ d.identifier → (∀ r ∈ db, r.identifier ≠ idOther) →
      isPaperSeen (markAsSeen (markAsSeen db d).1 d).1 idOther = false) := by
  by_cases h : db.any (fun r => r.identifier == d.identifier)
  · -- the identifier was already present: both calls roll back
    have hs : (markAsSeen (markAsSeen db d).1 d).1 = db := by
      simp [markAsSeen, h]
    have hret : (markAsSeen (markAsSeen db d).1 d).2 = getSeenPaper db d.identifier := by
      simp [markAsSeen, h]
    have hmem : ∃ r ∈ db, r.identifier = d.identifier := by
      obtain ⟨r, hr, hrx⟩ := List.any_eq_true.mp h
      exact ⟨r, hr, beq_iff_eq.mp hrx⟩
    have hfind : ∃ r, getSeenPaper db d.identifier = some r ∧ r.identifier = d.identifier := by
      obtain ⟨r, hr, hrx⟩ := hmem
      have hsome : (List.find? (fun r => r.identifier == d.identifier) db).isSome := by
        rw [List.find?_isSome]
        exact ⟨r, hr, beq_iff_eq.mpr hrx⟩
      obtain ⟨r', hr'⟩ := Option.isSome_iff_exists.mp hsome
      have hp := List.find?_some hr'
      exact ⟨r', hr', beq_iff_eq.mp hp⟩
    refine ⟨?_, by simp [markAsSeen, h], ?_, ?_, ?_⟩
    · rw [hs]
      have hle := countP_le_one_of_nodup_identifiers db d.identifier hinv
      have hpos : 0 < db.countP (fun r => r.identifier == d.identifier) := by
        rw [List.countP_pos_iff]
        obtain ⟨r, hr, hrx⟩ := hmem
        exact ⟨r, hr, beq_iff_eq.mpr hrx⟩
      omega
    · rw [hret]
      exact hfind
    · rw [hs]
      obtain ⟨r, hr, _⟩ := hfind
      simp [isPaperSeen, hr]
    · intro idOther hne hnever
      rw [hs]
      simp only [isPaperSeen, getSeenPaper]
      have hnone : db.find? (fun r => r.identifier == idOther) = none := by
        rw [List.find?_eq_none]
        intro r hr
        simpa using hnever r hr
      simp [hnone]
  · -- fresh identifier: the first call inserts, the second rolls back
    set row : SeenPaperRow :=
      { identifier := d.identifier, identifier_type := d.identifier_type,
        source := d.source, paper_id := d.paper_id } with hrowdef
    have hs1 : (markAsSeen db d).1 = db ++ [row] := by
      simp [markAsSeen, h]
    have h2 : (db ++ [row]).any (fun r => r.identifier == d.identifier) = true := by
      simp [hrowdef]
    have hs : (markAsSeen (markAsSeen db d).1 d).1 = db ++ [row] := by
      rw [hs1]
      simp [markAsSeen, h2]
    have hret : (markAsSeen (markAsSeen db d).1 d).2 =
        getSeenPaper (db ++ [row]) d.identifier := by
      rw [hs1]
      simp [markAsSeen, h2]
    have hforall : ∀ r ∈ db, r.identifier ≠ d.identifier := by
      intro r hr hcontra
      exact h (List.any_eq_true.mpr ⟨r, hr, beq_iff_eq.mpr hcontra⟩)
    have hzero : db.countP (fun r => r.identifier == d.identifier) = 0 := by
      rw [List.countP_eq_zero]
      intro a ha hax
      exact hforall a ha (beq_iff_eq.mp hax)
    have hnonedb : db.find? (fun r => r.identifier == d.identifier) = none := by
      rw [List.find?_eq_none]
      intro r hr
      simpa using hforall r hr
    have hfind : getSeenPaper (db ++ [row]) d.identifier = some row := by
      simp [getSeenPaper, List.find?_append, hnonedb, hrowdef]
    refine ⟨?_, ?_, ?_, ?_, ?_⟩
    · rw [hs, List.countP_append, hzero]
      simp [hrowdef]
    · rw [hs, hs1]
    · rw [hret, hfind]
      exact ⟨row, rfl, rfl⟩
    · rw [hs]
      simp [isPaperSeen, hfind]
    · intro idOther hne hnever
      rw [hs]
      simp only [isPaperSeen, getSeenPaper]
      have hnone : (db ++ [row]).find? (fun r => r.identifier == idOther) = none := by
        rw [List.find?_eq_none]
        intro r hr
        rcases List.mem_append.mp hr with hr | hr
        · simpa using hnever r hr
        · simp at hr
          subst hr
          simpa [hrowdef] using fun hcontra => hne hcontra.symm
      simp [hnone]

/-- Witness for C4 at a concrete store and record. -/
theorem C4_mark_as_seen_idempotent_witness :
    (markAsSeen (markAsSeen [] ⟨"10.1234/x".toList, "doi".toList, "arxiv".toList, none⟩).1
        ⟨"10.1234/x".toList, "doi".toList, "arxiv".toList, none⟩).1.countP
      (fun r => r.identifier == "10.1234/x".toList) = 1 ∧
    isPaperSeen (markAsSeen (markAsSeen [] ⟨"10.1234/x".toList, "doi".toList, "arxiv".toList, none⟩).1
        ⟨"10.1234/x".toList, "doi".toList, "arxiv".toList, none⟩).1 "10.1234/x".toList = true ∧
    isPaperSeen (markAsSeen (markAsSeen [] ⟨"10.1234/x".toList, "doi".toList, "arxiv".toList, none⟩).1
        ⟨"10.1234/x".toList, "doi".toList, "arxiv".toList, none⟩).1 "other".toList = false := by
  have h := C4_mark_as_seen_idempotent []
    ⟨"10.1234/x".toList, "doi".toList, "arxiv".toList, none⟩ (by simp)
  exact ⟨h.1, h.2.2.2.1, h.2.2.2.2 "other".toList (by decide) (by simp)⟩

/-! ## Claim C8 -/

/-- C8 counterexample: the claim states the keyword getters return
lower-cased tokens (every returned token equals its own lower-casing), but
`Config._get_list` never lower-cases: with `KEYWORDS_INCLUDE=LLM` the
getter returns the token `LLM`, which differs from its lower-casing. -/
theorem C8_counterexample_not_lowercased :
    getKeywordsInclude (some "LLM".toList) = ["LLM".toList] ∧
    pyLower "LLM".toList ≠ "LLM".toList := by
  decide

/-- C8 (amended): for every value of the `KEYWORDS_INCLUDE` /
`KEYWORDS_EXCLUDE` setting, the getters return the comma-separated string
split into a list of trimmed, non-empty tokens — in their original case
(no lower-casing). -/
theorem C8_get_list_tokens_trimmed_nonempty (env : Option Str) :
    (∀ t ∈ getKeywordsInclude env, pyStrip t = t ∧ t ≠ []) ∧
    (∀ t ∈ getKeywordsExclude env, pyStrip t = t ∧ t ≠ []) := by
  have key : ∀ t ∈ pyGetList env, pyStrip t = t ∧ t ≠ [] := by
    intro t ht
    unfold pyGetList at ht
    match env with
    | none => simp at ht
    | some v =>
      by_cases hv : v.isEmpty
      · simp [hv] at ht
      · simp only [hv, if_false, Bool.false_eq_true, ite_false] at ht
        unfold splitCommaStrip at ht
        obtain ⟨chunk, _, hchunk⟩ := List.mem_filterMap.mp ht
        by_cases hc : pyStrip chunk = []
        · simp [hc] at hchunk
        · simp only [hc, if_false] at hchunk
          have heq := Option.some_inj.mp hchunk
          subst heq
          exact ⟨pyStrip_pyStrip chunk, hc⟩
  exact ⟨key, key⟩

/-- Witness for C8's amended theorem at a concrete environment value. -/
theorem C8_get_list_tokens_witness :
    (pyStrip "a".toList = "a".toList ∧ "a".toList ≠ []) ∧
    (pyStrip "B c".toList = "B c".toList ∧ "B c".toList ≠ []) := by
  have h := C8_get_list_tokens_trimmed_nonempty (some " a , B c ,, ".toList)
  exact ⟨h.1 "a".toList (by decide), h.2 "B c".toList (by decide)⟩

/-! ## Claim C3 -/

theorem md5Digest_length (m : List Nat) : (md5Digest m).length = 16 := by
  simp [md5Digest, wordLEBytes]

theorem md5Hex_length (m : List Nat) : (md5Hex m).length = 32 := by
  have key : ∀ bs : List Nat, ((bs.map byteHex).flatten).length = 2 * bs.length := by
    intro bs
    induction bs with
    | nil => simp
    | cons b t ih =>
      simp only [List.map_cons, List.flatten_cons, List.length_append, ih, byteHex]
      simp
      omega
  rw [md5Hex, key, md5Digest_length]

theorem hexDigitChar_isHexDigit : ∀ n, n < 16 → isHexDigitChar (hexDigitChar n) = true := by
  decide

theorem md5Hex_all_hex (m : List Nat) : ∀ c ∈ md5Hex m, isHexDigitChar c = true := by
  intro c hc
  rw [md5Hex] at hc
  obtain ⟨l, hl, hcl⟩ := List.mem_flatten.mp hc
  obtain ⟨b, _, hb⟩ := List.mem_map.mp hl
  rw [← hb] at hcl
  simp only [byteHex, List.mem_cons, List.mem_singleton] at hcl
  rcases hcl with h | h | h
  · rw [h]; exact hexDigitChar_isHexDigit _ (Nat.mod_lt _ (by norm_num))
  · rw [h]; exact hexDigitChar_isHexDigit _ (Nat.mod_lt _ (by norm_num))
  · simp at h

/-- C3: identifier derivation.  A record with a (truthy) DOI yields exactly
that DOI with kind `doi`; with no truthy DOI but a truthy arXiv id, exactly
that id with kind `arxiv_id`; with neither, a 32-character hexadecimal hash
with kind `hash`, and two records agreeing on title, first author and
publication-year string hash identically. -/
theorem C3_identifier_derivation :
    (∀ (p : PaperMetadata) (d : Str), p.doi = some d → d ≠ [] →
      getIdentifier p = d ∧ getIdentifierType p = "doi".toList) ∧
    (∀ (p : PaperMetadata) (a : Str), truthyStr p.doi = false →
      p.arxiv_id = some a → a ≠ [] →
      getIdentifier p = a ∧ getIdentifierType p = "arxiv_id".toList) ∧
    (∀ p : PaperMetadata, truthyStr p.doi = false → truthyStr p.arxiv_id = false →
      (getIdentifier p).length = 32 ∧ (∀ c ∈ getIdentifier p, isHexDigitChar c = true) ∧
      getIdentifierType p = "hash".toList) ∧
    (∀ p q : PaperMetadata, truthyStr p.doi = false → truthyStr p.arxiv_id = false →
      truthyStr q.doi = false → truthyStr q.arxiv_id = false →
      p.title = q.title → identifierFirstAuthor p = identifierFirstAuthor q →
      identifierYearStr p = identifierYearStr q →
      getIdentifier p = getIdentifier q) := by
  refine ⟨?_, ?_, ?_, ?_⟩
  · intro p d hdoi hd
    have ht : truthyStr (some d) = true := by
      simpa [truthyStr] using hd
    constructor
    · simp [getIdentifier, hdoi, ht]
    · simp [getIdentifierType, hdoi, ht]
  · intro p a hdoi harx ha
    have ht : truthyStr (some a) = true := by
      simpa [truthyStr] using ha
    constructor
    · simp [getIdentifier, hdoi, harx, ht]
    · simp [getIdentifierType, hdoi, harx, ht]
  · intro p hdoi harx
    refine ⟨?_, ?_, ?_⟩
    · simp [getIdentifier, hdoi, harx, md5Hex_length]
    · intro c hc
      rw [getIdentifier] at hc
      simp only [hdoi, harx, Bool.false_eq_true, if_false] at hc
      exact md5Hex_all_hex _ c hc
    · simp [getIdentifierType, hdoi, harx]
  · intro p q hdoi harx hdoi' harx' htitle hauthor hyear
    simp only [getIdentifier, hdoi, harx, hdoi', harx', Bool.false_eq_true, if_false]
    rw [htitle, hauthor, hyear]

/-- Witness for C3 at concrete records: a DOI record, an arXiv record, a
hash record and a pair of hash records agreeing on title, first author and
year (with different sources). -/
theorem C3_identifier_derivation_witness :
    (getIdentifier
      { title := "Example Title".toList, authors := ["Ann".toList],
        abstract := "A".toList, url := "u".toList, source := "crossref".toList,
        doi := some "10.1234/x".toList } = "10.1234/x".toList) ∧
    (getIdentifier
      { title := "Example Title".toList, authors := ["Ann".toList],
        abstract := "A".toList, url := "u".toList, source := "arxiv".toList,
        arxiv_id := some "2401.0001".toList } = "2401.0001".toList) ∧
    (getIdentifier
      { title := "Example Title".toList, authors := ["Ann".toList],
        abstract := "A".toList, url := "u".toList,
        source := "tech_news".toList }).length = 32 ∧
    (getIdentifier
      { title := "Example Title".toList, authors := ["Ann".toList],
        abstract := "A".toList, url := "u".toList, source := "tech_news".toList,
        published_at := some 1600000000 } =
     getIdentifier
      { title := "Example Title".toList, authors := ["Ann".toList, "Bob".toList],
        abstract := "B".toList, url := "v".toList, source := "nasa".toList,
        published_at := some 1600000000 }) := by
  have h := C3_identifier_derivation
  refine ⟨?_, ?_, ?_, ?_⟩
  · exact (h.1 _ "10.1234/x".toList rfl (by decide)).1
  · exact (h.2.1 _ "2401.0001".toList (by decide) rfl (by decide)).1
  · exact (h.2.2.1 _ (by decide) (by decide)).1
  · exact h.2.2.2 _ _ (by decide) (by decide) (by decide) (by decide) rfl rfl rfl

/-! ## Claim C6 -/

theorem isPrefixOf_iff_exists : ∀ (u l : Str), u.isPrefixOf l = true ↔ ∃ t, u ++ t = l := by
  intro u
  induction u with
  | nil => intro l; simp [List.isPrefixOf]
  | cons a u' ih =>
    intro l
    cases l with
    | nil => simp [List.isPrefixOf]
    | cons b l' =>
      simp only [List.isPrefixOf, Bool.and_eq_true, ih l']
      constructor
      · rintro ⟨hab, t, ht⟩
        exact ⟨t, by rw [beq_iff_eq.mp hab]; simp [ht]⟩
      · rintro ⟨t, ht⟩
        simp only [List.cons_append, List.cons.injEq] at ht
        exact ⟨beq_iff_eq.mpr ht.1, t, ht.2⟩

theorem containsSub_iff_exists (sub l : Str) :
    containsSub sub l = true ↔ ∃ pre post, pre ++ sub ++ post = l := by
  match sub with
  | [] =>
    simp only [containsSub]
    exact ⟨fun _ => ⟨[], l, by simp⟩, fun _ => trivial⟩
  | s :: ss =>
    simp only [containsSub]
    induction l with
    | nil =>
      simp only [containsSubNE]
      constructor
      · intro h; simp at h
      · rintro ⟨pre, post, h⟩
        exact absurd h (by simp)
    | cons c rest ih =>
      simp only [containsSubNE]
      by_cases hp : (s :: ss).isPrefixOf (c :: rest) = true
      · simp only [hp, if_true, true_iff]
        obtain ⟨t, ht⟩ := (isPrefixOf_iff_exists _ _).mp hp
        exact ⟨[], t, by simpa using ht⟩
      · simp only [hp, if_false, Bool.false_eq_true, ite_false, ih]
        constructor
        · rintro ⟨pre, post, h⟩
          exact ⟨c :: pre, post, by simp [← h]⟩
        · rintro ⟨pre, post, h⟩
          cases pre with
          | nil =>
            exfalso
            apply hp
            rw [isPrefixOf_iff_exists]
            exact ⟨post, by simpa using h⟩
          | cons x pre' =>
            simp only [List.cons_append, List.cons.injEq] at h
            exact ⟨pre', post, h.2⟩

theorem containsSub_append_right (sub a b : Str) (h : containsSub sub b = true) :
    containsSub sub (a ++ b) = true := by
  rw [containsSub_iff_exists] at h ⊢
  obtain ⟨pre, post, hp⟩ := h
  exact ⟨a ++ pre, post, by rw [← hp]; simp⟩

theorem containsSub_append_left (sub a b : Str) (h : containsSub sub a = true) :
    containsSub sub (a ++ b) = true := by
  rw [containsSub_iff_exists] at h ⊢
  obtain ⟨pre, post, hp⟩ := h
  exact ⟨pre, post ++ b, by rw [← hp]; simp⟩

theorem pyLower_append (a b : Str) : pyLower (a ++ b) = pyLower a ++ pyLower b := by
  simp [pyLower]

/-- C6: filter behavior.  A title under 10 characters fails the quality
check regardless of other fields; an item containing `click here` or
`special offer` in title or abstract is classified as spam; an item whose
text matches an exclude-keyword is rejected outright (even when
include-keywords also match); and an item with no exclude-keyword match
passes the keyword filter whenever no include-keywords are configured. -/
theorem C6_content_filter_checks :
    (∀ (cfg : PipelineConfig) (p : Paper), p.title.length < 10 →
      passesQualityCheck cfg p = false) ∧
    (∀ p : Paper,
      (containsSub "click here".toList (pyLower p.title) = true ∨
       containsSub "special offer".toList (pyLower p.title) = true ∨
       (∃ a, p.abstract = some a ∧
         (containsSub "click here".toList (pyLower a) = true ∨
          containsSub "special offer".toList (pyLower a) = true))) →
      isSpam p = true) ∧
    (∀ (cfg : PipelineConfig) (now : Int) (p : Paper) (kw : Str),
      kw ∈ excludeKeywords cfg → containsSub kw (filterText p) = true →
      passesKeywordFilter cfg p = false ∧ shouldIncludePaper cfg now p = false) ∧
    (∀ (cfg : PipelineConfig) (p : Paper), includeKeywords cfg = [] →
      (∀ kw ∈ excludeKeywords cfg, containsSub kw (filterText p) = false) →
      passesKeywordFilter cfg p = true) := by
  refine ⟨?_, ?_, ?_, ?_⟩
  · intro cfg p h
    simp [passesQualityCheck, h]
  · intro p h
    have htext : ∀ sub : Str,
        (containsSub sub (pyLower p.title) = true ∨
         (∃ a, p.abstract = some a ∧ containsSub sub (pyLower a) = true)) →
        containsSub sub (filterText p) = true := by
      intro sub hsub
      unfold filterText
      rcases hsub with hsub | ⟨a, ha, hsub⟩
      · rw [show p.title ++ ' ' :: fstrOpt p.abstract =
            p.title ++ (' ' :: fstrOpt p.abstract) from rfl, pyLower_append]
        exact containsSub_append_left _ _ _ hsub
      · rw [show p.title ++ ' ' :: fstrOpt p.abstract =
            (p.title ++ [' ']) ++ fstrOpt p.abstract from by simp, pyLower_append,
          ha]
        exact containsSub_append_right _ _ _ hsub
    have hspam : matchesSpamPattern (filterText p) = true := by
      unfold matchesSpamPattern
      rcases h with h | h | ⟨a, ha, h | h⟩
      · rw [htext _ (Or.inl h)]; simp
      · rw [htext "special offer".toList (Or.inl h)]; simp
      · rw [htext _ (Or.inr ⟨a, ha, h⟩)]; simp
      · rw [htext "special offer".toList (Or.inr ⟨a, ha, h⟩)]; simp
    simp [isSpam, hspam]
  · intro cfg now p kw hkw hc
    have hany : (excludeKeywords cfg).any (fun k => containsSub k (filterText p)) = true :=
      List.any_eq_true.mpr ⟨kw, hkw, hc⟩
    have hkf : passesKeywordFilter cfg p = false := by
      simp [passesKeywordFilter, hany]
    exact ⟨hkf, by simp [shouldIncludePaper, hkf]⟩
  · intro cfg p hinc hexc
    have hany : (excludeKeywords cfg).any (fun k => containsSub k (filterText p)) = false := by
      rw [List.any_eq_false]
      intro k hk
      simp [hexc k hk]
    simp [passesKeywordFilter, hany, hinc]

/-- Witness for C6 at concrete configurations and papers. -/
theorem C6_content_filter_checks_witness :
    passesQualityCheck {}
      { source := "arxiv".toList, title := "Tiny".toList,
        authors := ["A".toList], abstract := some (List.replicate 60 'x'),
        url := "u".toList } = false ∧
    isSpam
      { source := "arxiv".toList, title := "A Grand Paper".toList,
        authors := ["A".toList],
        abstract := some "Click here to buy our special offer!".toList,
        url := "u".toList } = true ∧
    shouldIncludePaper
      { KEYWORDS_INCLUDE := "machine learning".toList,
        KEYWORDS_EXCLUDE := "survey".toList } 0
      { source := "arxiv".toList, title := "A survey of machine learning".toList,
        authors := ["A".toList],
        abstract := some (List.replicate 60 'x'), url := "u".toList } = false ∧
    passesKeywordFilter
      { KEYWORDS_EXCLUDE := "zebra".toList }
      { source := "arxiv".toList, title := "A Grand Paper".toList,
        authors := ["A".toList], abstract := some (List.replicate 60 'x'),
        url := "u".toList } = true := by
  have h := C6_content_filter_checks
  refine ⟨?_, ?_, ?_, ?_⟩
  · exact h.1 _ _ (by decide)
  · exact h.2.1 _ (Or.inr (Or.inr ⟨_, rfl, Or.inl (by decide)⟩))
  · exact (h.2.2.1 _ 0 _ "survey".toList (by decide) (by decide)).2
  · exact h.2.2.2 _ _ (by decide) (by decide)

/-! ## Claim C7 -/

/-- C7: ranking monotonicity and range.  A paper published within the last
day gets recency sub-score 1, strictly above that of an otherwise identical
paper dated to 2020 (the run happening after 2020); source `arxiv`
sub-scores strictly above any unrecognized source; and the composite
relevance score always lies in `[0, 1]`. -/
theorem C7_ranking_scores :
    (∀ now pub1 pub2 : Int, 0 ≤ now - pub1 → now - pub1 < 86400 →
      pub2 < 1609459200 → 1609632000 ≤ now →
      recencyScore now (some pub1) = 1 ∧
      recencyScore now (some pub2) < recencyScore now (some pub1)) ∧
    (∀ source : Str,
      pyLower source ≠ "arxiv".toList → pyLower source ≠ "crossref".toList →
      pyLower source ≠ "biorxiv".toList → pyLower source ≠ "medRxiv".toList →
      sourceScore source < sourceScore "arxiv".toList) ∧
    (∀ (cfg : PipelineConfig) (now : Int) (p : Paper),
      0 ≤ calcRelevanceScore cfg now p ∧ calcRelevanceScore cfg now p ≤ 1) := by
  refine ⟨?_, ?_, ?_⟩
  · intro now pub1 pub2 h0 h1 h2020 hnow
    have hd1 : (now - pub1).fdiv 86400 = 0 := by
      rw [Int.fdiv_eq_ediv _ (by norm_num)]
      exact Int.ediv_eq_zero_of_lt h0 h1
    have hone : recencyScore now (some pub1) = 1 := by
      simp only [recencyScore, hd1]
      norm_num
    refine ⟨hone, ?_⟩
    rw [hone]
    have hd2 : 2 ≤ (now - pub2).fdiv 86400 := by
      rw [Int.fdiv_eq_ediv _ (by norm_num)]
      rw [Int.le_ediv_iff_mul_le (by norm_num)]
      omega
    simp only [recencyScore]
    split_ifs with ha hb hc hd <;> [omega; norm_num; norm_num; norm_num; norm_num]
  · intro source h1 h2 h3 h4
    have hlit : pyLower "arxiv".toList = "arxiv".toList := by decide
    simp only [sourceScore, h1, h2, h3, h4, if_false]
    rw [if_pos hlit]
    norm_num
  · intro cfg now p
    simp only [calcRelevanceScore]
    constructor
    · exact le_trans (by norm_num) (le_max_left _ _)
    · exact max_le (by norm_num) (le_trans (min_le_left _ _) (by norm_num))

/-- Witness for C7 at concrete timestamps, sources and a concrete paper. -/
theorem C7_ranking_scores_witness :
    (recencyScore 1700000000 (some 1699990000) = 1 ∧
     recencyScore 1700000000 (some 1577836800) < recencyScore 1700000000 (some 1699990000)) ∧
    sourceScore "blog".toList < sourceScore "arxiv".toList ∧
    (0 ≤ calcRelevanceScore {} 1700000000
        { source := "arxiv".toList, title := "A Grand Paper".toList,
          authors := ["A".toList], abstract := some (List.replicate 60 'x'),
          url := "u".toList } ∧
     calcRelevanceScore {} 1700000000
        { source := "arxiv".toList, title := "A Grand Paper".toList,
          authors := ["A".toList], abstract := some (List.replicate 60 'x'),
          url := "u".toList } ≤ 1) := by
  have h := C7_ranking_scores
  refine ⟨?_, ?_, ?_⟩
  · exact h.1 1700000000 1699990000 1577836800 (by norm_num) (by norm_num)
      (by norm_num) (by norm_num)
  · exact h.2.1 "blog".toList (by decide) (by decide) (by decide) (by decide)
  · exact h.2.2 {} 1700000000 _

/-! ## Claims C5 and C10: length lemmas for the cleaning helpers -/

theorem joinWords_cons_length (w : Str) (ws : List Str) :
    (joinWords (w :: ws)).length =
      w.length + (if ws = [] then 0 else 1 + (joinWords ws).length) := by
  cases ws with
  | nil => simp [joinWords]
  | cons x t => simp [joinWords]; omega

theorem collapse_length_aux : ∀ l : Str,
    (collapse l).length ≤ l.length ∧
    ((pyWordsCore l).1 = [] → (pyWordsCore l).2 ≠ [] →
      (collapse l).length + 1 ≤ l.length) := by
  intro l
  induction l with
  | nil => simp [collapse, pyWords, pyWordsCore, joinWords]
  | cons c rest ih =>
    rcases hpr : pyWordsCore rest with ⟨cur, ws⟩
    rw [hpr] at ih
    have hcore : pyWordsCore (c :: rest) = wordsStep c (cur, ws) := by
      rw [← hpr]; rfl
    have hcollapse_rest : collapse rest =
        joinWords (if cur.isEmpty then ws else cur :: ws) := by
      simp [collapse, pyWords, hpr]
    by_cases hws : isWS c
    · -- whitespace: the collapsed text is unchanged
      have hstep : wordsStep c (cur, ws) =
          ([], if cur.isEmpty then ws else cur :: ws) := by
        simp [wordsStep, hws]
      have hcol : collapse (c :: rest) = collapse rest := by
        simp only [collapse, pyWords, hcore, hstep, hpr]
        simp
      constructor
      · rw [hcol]
        simp only [List.length_cons]
        have := ih.1
        omega
      · intro _ _
        rw [hcol]
        simp only [List.length_cons]
        have := ih.1
        omega
    · -- non-whitespace: the character joins the current word
      have hstep : wordsStep c (cur, ws) = (c :: cur, ws) := by
        simp [wordsStep, hws]
      have hcol : collapse (c :: rest) = joinWords ((c :: cur) :: ws) := by
        simp [collapse, pyWords, hcore, hstep]
      constructor
      · rw [hcol, joinWords_cons_length]
        by_cases hcur : cur.isEmpty
        · have hc' : cur = [] := by simpa using hcur
          by_cases hwse : ws = []
          · subst hwse
            simp [hc']
          · have h2 := ih.2 hc' hwse
            rw [hcollapse_rest, hc'] at h2
            simp only [List.isEmpty_nil, if_true] at h2
            simp only [hwse, if_false, hc', List.length_cons, List.length_nil]
            omega
        · have hc' : cur ≠ [] := by simpa using hcur
          have h1 := ih.1
          rw [hcollapse_rest] at h1
          simp only [List.isEmpty_eq_true, hc', if_false] at h1
          rw [joinWords_cons_length] at h1
          simp only [List.length_cons]
          omega
      · intro hfst _
        rw [hcore, hstep] at hfst
        simp at hfst

theorem collapse_length_le (l : Str) : (collapse l).length ≤ l.length :=
  (collapse_length_aux l).1

theorem pyStrip_length_le (l : Str) : (pyStrip l).length ≤ l.length := by
  unfold pyStrip
  calc (((l.dropWhile isWS).reverse.dropWhile isWS).reverse).length
      = ((l.dropWhile isWS).reverse.dropWhile isWS).length := by simp
    _ ≤ (l.dropWhile isWS).reverse.length :=
        (List.dropWhile_sublist _).length_le
    _ = (l.dropWhile isWS).length := by simp
    _ ≤ l.length := (List.dropWhile_sublist _).length_le

theorem stripLabel_length_le (p t : Str) : (stripLabel p t).length ≤ t.length := by
  unfold stripLabel
  split
  · calc (pyStrip (t.drop p.length)).length
        ≤ (t.drop p.length).length := pyStrip_length_le _
      _ ≤ t.length := by simp
  · exact le_refl _

theorem stripLabels_length_le (ps : List Str) (t : Str) :
    (stripLabels ps t).length ≤ t.length := by
  induction ps generalizing t with
  | nil => simp [stripLabels]
  | cons p ps ih =>
    calc (stripLabels (p :: ps) t).length
        = (stripLabels ps (stripLabel p t)).length := by simp [stripLabels]
      _ ≤ (stripLabel p t).length := ih _
      _ ≤ t.length := stripLabel_length_le p t

theorem cleanAbstractCore_length_le (a : Str) :
    (cleanAbstractCore a).length ≤ a.length :=
  le_trans (stripLabels_length_le _ _) (collapse_length_le a)

theorem cleanAbstract_lt_of_lt (a : Str) (n : Nat) (hn : n ≤ 2000) (h : a.length < n) :
    (cleanAbstract a).length < n := by
  unfold cleanAbstract
  split
  · cases n with
    | zero => exact absurd h (by omega)
    | succ k => simp
  · have hle := cleanAbstractCore_length_le a
    have : ¬((cleanAbstractCore a).length > 2000) := by omega
    simp only [this, if_false]
    omega

/-! ### Executable bridges and normalization step lemmas -/

theorem upperFracExceedsHalf_eq_B (t : Str) :
    upperFracExceedsHalf t = upperFracExceedsHalfB t := by
  unfold upperFracExceedsHalf upperFracExceedsHalfB
  rw [decide_eq_decide]
  rcases Nat.eq_zero_or_pos t.length with h0 | hpos
  · rw [h0]
    have hc : t.countP (fun c => c.isUpper) = 0 := by
      have := List.countP_le_length (l := t) (p := fun c => c.isUpper)
      omega
    rw [hc]
    norm_num
  · have hn : (0 : ℚ) < (t.length : ℚ) := by exact_mod_cast hpos
    rw [gt_iff_lt, div_lt_div_iff (by norm_num) hn]
    constructor
    · intro h
      have : (t.length : ℚ) < 2 * (t.countP (fun c => c.isUpper) : ℚ) := by linarith
      exact_mod_cast this
    · intro h
      have : (t.length : ℚ) < 2 * (t.countP (fun c => c.isUpper) : ℚ) := by exact_mod_cast h
      linarith

theorem isSpam_eq_B (p : Paper) : isSpam p = isSpamB p := by
  unfold isSpam isSpamB
  rw [upperFracExceedsHalf_eq_B]

theorem passesQualityCheck_eq_B (cfg : PipelineConfig) (p : Paper) :
    passesQualityCheck cfg p = passesQualityCheckB cfg p := by
  unfold passesQualityCheck passesQualityCheckB
  rw [isSpam_eq_B]

theorem shouldIncludePaper_eq_B (cfg : PipelineConfig) (now : Int) (p : Paper) :
    shouldIncludePaper cfg now p = shouldIncludePaperB cfg now p := by
  unfold shouldIncludePaper shouldIncludePaperB
  rw [passesQualityCheck_eq_B]

theorem isEmpty_false_of_ne {α : Type} {l : List α} (h : l ≠ []) : l.isEmpty = false := by
  cases hE : l.isEmpty
  · rfl
  · exact absurd (List.isEmpty_iff.mp hE) h

/-- The news-source branch of the abstract step: a too-short cleaned
abstract of a news item is replaced by the synthesized value. -/
theorem normalizeAbstractStep_news (source title abstract : Str)
    (hsrc : isNewsSource source = true)
    (htne : title ≠ [])
    (habs : abstract.length < 20) :
    normalizeAbstractStep source title abstract = some
      (if 20 ≤ ("News: ".toList ++ title).length
       then "News: ".toList ++ title
       else (title ++ " - ".toList ++ title).take 25) := by
  unfold normalizeAbstractStep
  rw [hsrc]
  simp only [if_true]
  have hcond : (abstract.isEmpty || decide (abstract.length < 20)) = true := by
    simp [habs]
  rw [hcond]
  have htne' : title.isEmpty = false := isEmpty_false_of_ne htne
  simp only [if_true, htne', Bool.not_false, ge_iff_le]
  split <;> rfl

/-- The non-news branch of the abstract step: a too-short cleaned abstract
drops the item. -/
theorem normalizeAbstractStep_notnews_short (source title abstract : Str)
    (hsrc : isNewsSource source = false)
    (habs : abstract.length < 50) :
    normalizeAbstractStep source title abstract = none := by
  unfold normalizeAbstractStep
  rw [hsrc]
  simp only [Bool.false_eq_true, if_false]
  have hcond : (abstract.isEmpty || decide (abstract.length < 50)) = true := by
    simp [habs]
  rw [hcond]
  simp

/-- Shape of a successful `_normalize_single_paper` run, given a valid
cleaned title, an accepted abstract and valid authors. -/
theorem normalizeSinglePaper_some (p : PaperMetadata) (a : Str)
    (h10 : 10 ≤ (cleanTitle p.title).length)
    (hstep : normalizeAbstractStep p.source (cleanTitle p.title)
      (cleanAbstract p.abstract) = some a)
    (hauth : normalizeAuthors p.authors ≠ []) :
    normalizeSinglePaper p = some
      { source := p.source, doi := p.doi, arxiv_id := p.arxiv_id,
        title := cleanTitle p.title, authors := normalizeAuthors p.authors,
        abstract := some a, url := normalizeUrl p.url p.doi p.arxiv_id,
        published_at := normalizeDate p.published_at,
        tags := some (extractTags p),
        categories := some (normalizeCategories p.categories p.source) } := by
  have htne : (cleanTitle p.title).isEmpty = false :=
    isEmpty_false_of_ne (by intro h; rw [h] at h10; simp at h10)
  have hlt : ¬((cleanTitle p.title).length < 10) := by omega
  have hA : (normalizeAuthors p.authors).isEmpty = false := isEmpty_false_of_ne hauth
  unfold normalizeSinglePaper
  simp only [htne, Bool.false_or, decide_eq_true_eq]
  rw [if_neg hlt, hstep]
  simp only [hA]
  simp

/-! ### The C5 counterexample and amended claim -/

theorem foldr_wordsStep_replicate_space (n : Nat) :
    (List.replicate n ' ').foldr wordsStep ([], []) = (([], []) : Str × List Str) := by
  induction n with
  | zero => rfl
  | succ n ih =>
      simp only [List.replicate_succ, List.foldr_cons, ih]
      rfl

theorem pyWordsCore_nows (l : Str) (h : ∀ c ∈ l, isWS c = false) :
    pyWordsCore l = (l, []) := by
  induction l with
  | nil => rfl
  | cons c t ih =>
      have hc : isWS c = false := h c (List.mem_cons_self _ _)
      have ht := ih (fun x hx => h x (List.mem_cons_of_mem _ hx))
      simp only [pyWordsCore, List.foldr_cons] at *
      rw [ht]
      simp [wordsStep, hc]

theorem collapse_nows (l : Str) (h : ∀ c ∈ l, isWS c = false) : collapse l = l := by
  cases l with
  | nil => rfl
  | cons c t =>
      have hcore := pyWordsCore_nows (c :: t) h
      simp [collapse, pyWords, hcore, joinWords]

theorem mem_replicate_isWS_false {c0 : Char} (hc0 : isWS c0 = false) (n : Nat) :
    ∀ c ∈ List.replicate n c0, isWS c = false := by
  intro c hc
  rw [List.eq_of_mem_replicate hc]
  exact hc0

set_option maxRecDepth 8192 in
/-- C5 counterexample: the claim says every 350-character title truncates
to exactly 300 characters ending in `...`, and that every short-abstract
`tech_news` item is kept.  The 350-character title `A` followed by 349
spaces cleans (whitespace-collapse) to the single character `A`, so it is
not truncated to 300 characters, and the `tech_news` item carrying it is
dropped for its too-short cleaned title despite its under-20-character
abstract. -/
theorem C5_counterexample_whitespace_title :
    ('A' :: List.replicate 349 ' ').length = 350 ∧
    cleanTitle ('A' :: List.replicate 349 ' ') = ['A'] ∧
    ¬((cleanTitle ('A' :: List.replicate 349 ' ')).length = 300) ∧
    normalizeSinglePaper
      { title := 'A' :: List.replicate 349 ' ', authors := ["Ann".toList],
        abstract := "hi".toList, url := "u".toList,
        source := "tech_news".toList } = none := by
  have hcore : pyWordsCore ('A' :: List.replicate 349 ' ') = (['A'], []) := by
    simp only [pyWordsCore, List.foldr_cons]
    rw [show (List.replicate 349 ' ').foldr wordsStep (([], []) : Str × List Str) =
      ([], []) from foldr_wordsStep_replicate_space 349]
    rfl
  have hcol : collapse ('A' :: List.replicate 349 ' ') = ['A'] := by
    simp only [collapse, pyWords, hcore]
    rfl
  have hctc : cleanTitleCore ('A' :: List.replicate 349 ' ') = ['A'] := by
    unfold cleanTitleCore
    rw [hcol]
    decide
  have hct : cleanTitle ('A' :: List.replicate 349 ' ') = ['A'] := by
    have hne : ('A' :: List.replicate 349 ' ').isEmpty = false := rfl
    simp only [cleanTitle, hne, Bool.false_eq_true, if_false, hctc]
    rw [if_neg (by decide)]
  refine ⟨by rw [List.length_cons, List.length_replicate], hct,
    by rw [hct]; decide, ?_⟩
  simp only [normalizeSinglePaper, hct]
  rw [if_pos (by decide)]

theorem stripLabel_of_not {p t : Str} (h : p.isPrefixOf t = false) :
    stripLabel p t = t := by
  unfold stripLabel
  rw [h]
  simp

/-- C5 (amended): titles whose collapsed, label-stripped form is 350
characters clean to exactly 300 characters ending in `...`; abstracts whose
collapsed, label-stripped form is 2100 characters clean to exactly 2000
characters ending in `...`; a title whose collapsed form is `Title: t`
(with `t` itself stripped, not starting with another strippable label, and
within the length cap) cleans to exactly `t`; a `tech_news` item with a
valid cleaned title, valid authors and a cleaned abstract under 20
characters is kept with a synthesized abstract; and an `arxiv` item whose
raw abstract is under 20 characters is dropped. -/
theorem C5_normalizer_cleaning :
    (∀ u : Str, (cleanTitleCore u).length = 350 →
      (cleanTitle u).length = 300 ∧ ∃ s, cleanTitle u = s ++ "...".toList) ∧
    (∀ a : Str, (cleanAbstractCore a).length = 2100 →
      (cleanAbstract a).length = 2000 ∧ ∃ s, cleanAbstract a = s ++ "...".toList) ∧
    (∀ u t : Str, collapse u = "Title: ".toList ++ t → pyStrip t = t →
      "TITLE:".toList.isPrefixOf t = false → "Paper:".toList.isPrefixOf t = false →
      t.length ≤ 300 → cleanTitle u = t) ∧
    (∀ p : PaperMetadata, p.source = "tech_news".toList →
      10 ≤ (cleanTitle p.title).length →
      (cleanAbstract p.abstract).length < 20 →
      normalizeAuthors p.authors ≠ [] →
      ∃ r, normalizeSinglePaper p = some r ∧
        r.abstract = some
          (if 20 ≤ ("News: ".toList ++ cleanTitle p.title).length
           then "News: ".toList ++ cleanTitle p.title
           else (cleanTitle p.title ++ " - ".toList ++ cleanTitle p.title).take 25)) ∧
    (∀ p : PaperMetadata, p.source = "arxiv".toList → p.abstract.length < 20 →
      normalizeSinglePaper p = none) := by
  refine ⟨?_, ?_, ?_, ?_, ?_⟩
  · intro u h
    have hune : u ≠ [] := by
      intro hu
      rw [hu] at h
      rw [show cleanTitleCore [] = [] from by decide] at h
      simp at h
    have hne : u.isEmpty = false := isEmpty_false_of_ne hune
    have hgt : (cleanTitleCore u).length > 300 := by omega
    have hform : cleanTitle u = (cleanTitleCore u).take 297 ++ "...".toList := by
      simp only [cleanTitle, hne, Bool.false_eq_true, if_false]
      rw [if_pos hgt]
    refine ⟨?_, ⟨(cleanTitleCore u).take 297, hform⟩⟩
    rw [hform]
    simp only [List.length_append, List.length_take, h]
    decide
  · intro a h
    have hane : a ≠ [] := by
      intro ha
      rw [ha] at h
      rw [show cleanAbstractCore [] = [] from by decide] at h
      simp at h
    have hne : a.isEmpty = false := isEmpty_false_of_ne hane
    have hgt : (cleanAbstractCore a).length > 2000 := by omega
    have hform : cleanAbstract a = (cleanAbstractCore a).take 1997 ++ "...".toList := by
      simp only [cleanAbstract, hne, Bool.false_eq_true, if_false]
      rw [if_pos hgt]
    refine ⟨?_, ⟨(cleanAbstractCore a).take 1997, hform⟩⟩
    rw [hform]
    simp only [List.length_append, List.length_take, h]
    decide
  · intro u t hc hs h2 h3 hlen
    have hune : u ≠ [] := by
      intro hu
      rw [hu] at hc
      rw [show collapse [] = [] from rfl] at hc
      exact absurd hc.symm (by simp)
    have hdrop : ("Title: ".toList ++ t).drop 6 = ' ' :: t := rfl
    have hpref : "Title:".toList.isPrefixOf ("Title: ".toList ++ t) = true := by
      rw [isPrefixOf_iff_exists]
      exact ⟨' ' :: t, rfl⟩
    have hsp : pyStrip (' ' :: t) = pyStrip t := by
      have hws : isWS ' ' = true := rfl
      simp [pyStrip, List.dropWhile_cons, hws]
    have hstrip1 : stripLabel "Title:".toList ("Title: ".toList ++ t) = t := by
      unfold stripLabel
      rw [hpref]
      simp only [if_true]
      rw [show ("Title:".toList : Str).length = 6 from rfl, hdrop, hsp, hs]
    have hcore : cleanTitleCore u = t := by
      unfold cleanTitleCore
      rw [hc]
      simp only [titleLabels, stripLabels, List.foldl_cons, List.foldl_nil]
      rw [hstrip1, stripLabel_of_not h2, stripLabel_of_not h3]
    have hne : u.isEmpty = false := isEmpty_false_of_ne hune
    simp only [cleanTitle, hne, Bool.false_eq_true, if_false, hcore]
    rw [if_neg (by omega)]
  · intro p hsrc h10 habs hauth
    have htne : cleanTitle p.title ≠ [] := by
      intro h
      rw [h] at h10
      simp at h10
    have hnews : isNewsSource p.source = true := by
      rw [hsrc]; decide
    have hstep := normalizeAbstractStep_news p.source (cleanTitle p.title)
      (cleanAbstract p.abstract) hnews htne habs
    exact ⟨_, normalizeSinglePaper_some p _ h10 hstep hauth, rfl⟩
  · intro p hsrc habs
    unfold normalizeSinglePaper
    by_cases ht : ((cleanTitle p.title).isEmpty ∨ (cleanTitle p.title).length < 10)
    · rw [if_pos (by simpa using ht)]
    · rw [if_neg (by simpa using ht)]
      have hnn : isNewsSource p.source = false := by
        rw [hsrc]; decide
      have hclean : (cleanAbstract p.abstract).length < 50 := by
        have := cleanAbstract_lt_of_lt p.abstract 20 (by omega) habs
        omega
      rw [normalizeAbstractStep_notnews_short _ _ _ hnn hclean]

/-- Witness for C5's amended theorem at concrete inputs. -/
theorem C5_normalizer_cleaning_witness :
    ((cleanTitle (List.replicate 350 'A')).length = 300 ∧
      ∃ s, cleanTitle (List.replicate 350 'A') = s ++ "...".toList) ∧
    ((cleanAbstract (List.replicate 2100 'B')).length = 2000 ∧
      ∃ s, cleanAbstract (List.replicate 2100 'B') = s ++ "...".toList) ∧
    cleanTitle "Title: Attention Is All You Need".toList =
      "Attention Is All You Need".toList ∧
    (∃ r, normalizeSinglePaper
      { title := "A Fresh Space Probe".toList, authors := ["Ann".toList],
        abstract := "tiny".toList, url := "u".toList,
        source := "tech_news".toList } = some r ∧
      r.abstract = some
        (if 20 ≤ ("News: ".toList ++ cleanTitle "A Fresh Space Probe".toList).length
         then "News: ".toList ++ cleanTitle "A Fresh Space Probe".toList
         else (cleanTitle "A Fresh Space Probe".toList ++ " - ".toList ++
           cleanTitle "A Fresh Space Probe".toList).take 25)) ∧
    normalizeSinglePaper
      { title := "A Fresh Space Probe".toList, authors := ["Ann".toList],
        abstract := "tiny".toList, url := "u".toList,
        source := "arxiv".toList } = none := by
  have h := C5_normalizer_cleaning
  have hcolA := collapse_nows (List.replicate 350 'A')
    (mem_replicate_isWS_false (show isWS 'A' = false from rfl) 350)
  have hcoreA : (cleanTitleCore (List.replicate 350 'A')).length = 350 := by
    unfold cleanTitleCore
    rw [hcolA]
    simp only [titleLabels, stripLabels, List.foldl_cons, List.foldl_nil]
    rw [stripLabel_of_not (by decide), stripLabel_of_not (by decide),
      stripLabel_of_not (by decide)]
    rw [List.length_replicate]
  have hcolB := collapse_nows (List.replicate 2100 'B')
    (mem_replicate_isWS_false (show isWS 'B' = false from rfl) 2100)
  have hcoreB : (cleanAbstractCore (List.replicate 2100 'B')).length = 2100 := by
    unfold cleanAbstractCore
    rw [hcolB]
    simp only [abstractLabels, stripLabels, List.foldl_cons, List.foldl_nil]
    rw [stripLabel_of_not (by decide), stripLabel_of_not (by decide),
      stripLabel_of_not (by decide)]
    rw [List.length_replicate]
  refine ⟨?_, ?_, ?_, ?_, ?_⟩
  · exact h.1 (List.replicate 350 'A') hcoreA
  · exact h.2.1 (List.replicate 2100 'B') hcoreB
  · exact h.2.2.1 "Title: Attention Is All You Need".toList
      "Attention Is All You Need".toList (by decide) (by decide) (by decide)
      (by decide) (by decide)
  · exact h.2.2.2.1 _ rfl (by decide) (by decide) (by decide)
  · exact h.2.2.2.2 _ rfl (by decide)

/-! ### The C10 counterexample and amended claim -/

set_option maxRecDepth 20000 in
/-- C10 counterexample: with `SUMMARY_MIN_LENGTH = 20`, the `tech_news`
item titled `Quantum Leaps` (13 characters, below `20 - 6 = 14`) with the
5-character abstract `Short` is normalized to the synthesized 25-character
abstract `Quantum Leaps - Quantum L`, which is not shorter than
`SUMMARY_MIN_LENGTH`, and the quality check accepts the record rather than
rejecting it — contradicting both conclusions of the claim. -/
theorem C10_counterexample_small_minimum :
    ("Short".toList.length < 20 ∧
     (cleanTitle "Quantum Leaps".toList).length < 20 - 6) ∧
    (normalizeSinglePaper
      { title := "Quantum Leaps".toList, authors := ["Ann".toList],
        abstract := "Short".toList, url := "u".toList,
        source := "tech_news".toList }).isSome = true ∧
    ((normalizeSinglePaper
      { title := "Quantum Leaps".toList, authors := ["Ann".toList],
        abstract := "Short".toList, url := "u".toList,
        source := "tech_news".toList }).getD default).abstract =
      some "Quantum Leaps - Quantum L".toList ∧
    ¬("Quantum Leaps - Quantum L".toList.length < 20) ∧
    passesQualityCheck { SUMMARY_MIN_LENGTH := 20 }
      ((normalizeSinglePaper
        { title := "Quantum Leaps".toList, authors := ["Ann".toList],
          abstract := "Short".toList, url := "u".toList,
          source := "tech_news".toList }).getD default) = true := by
  refine ⟨by decide, by decide, by decide, by decide, ?_⟩
  rw [passesQualityCheck_eq_B]
  decide

/-- C10 (amended): when `SUMMARY_MIN_LENGTH` is at least 26 (as with the
default 150), a `tech_news`/`nasa` item whose raw abstract is under 20
characters, whose cleaned title has length in `[10, SUMMARY_MIN_LENGTH - 7]`
and which has valid authors is accepted by the normalizer with a
synthesized abstract shorter than `SUMMARY_MIN_LENGTH`, and the quality
check of a `ContentFilter` built from the same configuration then always
rejects it. -/
theorem C10_synthesis_never_rescues (cfg : PipelineConfig) (p : PaperMetadata)
    (hsrc : isNewsSource p.source = true)
    (hmin : 26 ≤ cfg.SUMMARY_MIN_LENGTH)
    (habs : p.abstract.length < 20)
    (h10 : 10 ≤ (cleanTitle p.title).length)
    (htlen : ((cleanTitle p.title).length : Int) < cfg.SUMMARY_MIN_LENGTH - 6)
    (hauth : normalizeAuthors p.authors ≠ []) :
    ∃ r, normalizeSinglePaper p = some r ∧
      (∃ a, r.abstract = some a ∧ (a.length : Int) < cfg.SUMMARY_MIN_LENGTH) ∧
      passesQualityCheck cfg r = false := by
  have htne : cleanTitle p.title ≠ [] := by
    intro h
    rw [h] at h10
    simp at h10
  have hclean : (cleanAbstract p.abstract).length < 20 :=
    cleanAbstract_lt_of_lt _ 20 (by omega) habs
  have hstep := normalizeAbstractStep_news p.source (cleanTitle p.title)
    (cleanAbstract p.abstract) hsrc htne hclean
  set synth : Str :=
    (if 20 ≤ ("News: ".toList ++ cleanTitle p.title).length
     then "News: ".toList ++ cleanTitle p.title
     else (cleanTitle p.title ++ " - ".toList ++ cleanTitle p.title).take 25)
    with hsynthdef
  have hrec := normalizeSinglePaper_some p synth h10 (by rw [hstep]) hauth
  have h6 : ("News: ".toList : Str).length = 6 := rfl
  have h3 : (" - ".toList : Str).length = 3 := rfl
  have hsynthlen : (synth.length : Int) < cfg.SUMMARY_MIN_LENGTH := by
    rw [hsynthdef]
    by_cases hge : 20 ≤ ("News: ".toList ++ cleanTitle p.title).length
    · rw [if_pos hge, List.length_append, h6]
      push_cast
      omega
    · rw [if_neg hge, List.length_take]
      have hmle : min ((cleanTitle p.title ++ " - ".toList ++ cleanTitle p.title).length) 25 ≤ 25 :=
        min_le_right _ _
      push_cast
      omega
  have hsynthpos : synth.length ≠ 0 := by
    rw [hsynthdef]
    by_cases hge : 20 ≤ ("News: ".toList ++ cleanTitle p.title).length
    · rw [if_pos hge, List.length_append, h6]
      omega
    · rw [if_neg hge, List.length_take]
      have hlen3 : (cleanTitle p.title ++ " - ".toList ++ cleanTitle p.title).length =
          (cleanTitle p.title).length + 3 + (cleanTitle p.title).length := by
        rw [List.length_append, List.length_append, h3]
      rw [hlen3]
      omega
  have hsne : synth ≠ [] := by
    intro h
    apply hsynthpos
    rw [h]
    rfl
  refine ⟨_, hrec, ⟨synth, rfl, hsynthlen⟩, ?_⟩
  unfold passesQualityCheck
  simp only
  rw [if_neg]
  · rw [if_pos]
    simp only [isEmpty_false_of_ne hsne, Bool.false_or, decide_eq_true_eq]
    exact hsynthlen
  · simp only [isEmpty_false_of_ne htne, Bool.false_or, decide_eq_true_eq]
    omega

/-- Witness for C10's amended theorem at a concrete configuration and item. -/
theorem C10_synthesis_never_rescues_witness :
    ∃ r, normalizeSinglePaper
      { title := "A Fresh Space Probe".toList, authors := ["Ann".toList],
        abstract := "tiny".toList, url := "u".toList,
        source := "tech_news".toList } = some r ∧
      (∃ a, r.abstract = some a ∧
        (a.length : Int) < PipelineConfig.SUMMARY_MIN_LENGTH
          { SUMMARY_MIN_LENGTH := 150 }) ∧
      passesQualityCheck { SUMMARY_MIN_LENGTH := 150 } r = false := by
  exact C10_synthesis_never_rescues { SUMMARY_MIN_LENGTH := 150 }
    { title := "A Fresh Space Probe".toList, authors := ["Ann".toList],
      abstract := "tiny".toList, url := "u".toList, source := "tech_news".toList }
    (by decide) (by decide) (by decide) (by decide) (by decide) (by decide)

/-! ## Claim C2: the news-quota pass of `process_papers` -/

theorem c2_keywordScore (t : Str) : keywordScore c2Cfg t = 1/2 := by
  have h0 : includeKeywords c2Cfg = [] := by decide
  simp only [keywordScore, h0, List.isEmpty_nil, if_true]
  norm_num

theorem c2_news1_isNews : isNewsSource c2News1.source = true := by decide

theorem c2_news2_isNews : isNewsSource c2News2.source = true := by decide

/-- Relevance score of the concrete news items: keyword component `0.5`
(empty include list), recency `1.0` (published today), quality `0.5`,
news-boosted source `0.65`, category `0.5`, no tag boost; the weighted sum
is `0.615 = 123/200`. -/
theorem c2_score_aux (p : Paper)
    (hsrc : p.source = "tech_news".toList)
    (hpub : p.published_at = some 0)
    (habs : p.abstract = some c2Abstract)
    (hauth : p.authors = ["Ann Author".toList])
    (hdoi : p.doi = none)
    (htags : p.tags = none)
    (hcats : p.categories = none) :
    calcRelevanceScore c2Cfg 0 p = 123/200 := by
  have hrec : recencyScore 0 (some 0) = 1 := by
    simp only [recencyScore]
    rw [show ((0 : Int) - 0).fdiv 86400 = 0 from by decide]
    rw [if_pos (show ((0 : Int) ≤ 1) from by decide)]
    norm_num
  have hq : qualityScore p = 1/2 := by
    have h200 : decide (((some c2Abstract).getD []).length > 200) = false := by decide
    have hlen1 : decide ((["Ann Author".toList] : List Str).length > 1) = false := by decide
    have htrun : truthyStr (none : Option Str) = false := rfl
    simp only [qualityScore, habs, hauth, hdoi, h200, hlen1, htrun, Bool.and_false,
      Bool.false_and, Bool.false_eq_true, if_false]
    norm_num [min_def]
  have hsrcsc : sourceScore p.source = 1/2 := by
    rw [hsrc]
    simp only [sourceScore]
    rw [if_neg (by decide), if_neg (by decide), if_neg (by decide), if_neg (by decide)]
    norm_num
  have hnews : isNewsSource p.source = true := by rw [hsrc]; decide
  have hcat : categoryScore none = 1/2 := by
    simp only [categoryScore]
    rw [if_pos (show (!truthyList none) = true from by decide)]
    norm_num
  simp only [calcRelevanceScore, c2_keywordScore, hpub, hrec, hq, hnews, hsrcsc,
    hcats, hcat, htags]
  norm_num [min_def, max_def]

theorem c2_sort : sortByScoreDesc [(c2News1, (123/200 : ℚ)), (c2News2, 123/200)] =
    [(c2News1, 123/200), (c2News2, 123/200)] := by
  simp only [sortByScoreDesc, List.foldl_cons, List.foldl_nil, insertDesc]
  rw [if_neg (show ¬((123/200 : ℚ) > 123/200) from by norm_num)]

theorem c2_rank : rankPapers c2Cfg 0 c2Papers = [(c2News1, 123/200), (c2News2, 123/200)] := by
  have h1 : calcRelevanceScore c2Cfg 0 c2News1 = 123/200 :=
    c2_score_aux c2News1 rfl rfl rfl rfl rfl rfl rfl
  have h2 : calcRelevanceScore c2Cfg 0 c2News2 = 123/200 :=
    c2_score_aux c2News2 rfl rfl rfl rfl rfl rfl rfl
  simp only [rankPapers, c2Papers, List.map_cons, List.map_nil, h1, h2]
  exact c2_sort

theorem c2_filterPapers_id : filterPapers c2Cfg 0 c2Papers = c2Papers := by
  simp only [filterPapers, shouldIncludePaper_eq_B]
  decide

theorem c2_slice : pySliceTo c2Cfg.MAX_PAPERS_PER_DAY
    [(c2News1, (123/200 : ℚ)), (c2News2, 123/200)] = [(c2News1, 123/200)] := by
  simp only [pySliceTo]
  rw [if_pos (show (0 : Int) ≤ c2Cfg.MAX_PAPERS_PER_DAY from by decide)]
  rfl

theorem c2_filter_top : List.filter (fun ps => isNewsSource ps.1.source)
    [(c2News1, (123/200 : ℚ))] = [(c2News1, 123/200)] := by
  simp [c2_news1_isNews]

theorem c2_filter_all : List.filter (fun ps => isNewsSource ps.1.source)
    [(c2News1, (123/200 : ℚ)), (c2News2, 123/200)] =
    [(c2News1, 123/200), (c2News2, 123/200)] := by
  simp [c2_news1_isNews, c2_news2_isNews]

/-- The extra-news pass skips the already-selected first item and collects
the second. -/
theorem c2_pick : pickExtra [c2News1] [c2News1]
    (c2Cfg.MIN_NEWS_QUOTA - (([c2News1] : List Paper).length : Int)) []
    [(c2News1, (123/200 : ℚ)), (c2News2, 123/200)] = [(c2News2, 123/200)] := by
  rw [show c2Cfg.MIN_NEWS_QUOTA - (([c2News1] : List Paper).length : Int) = 1 from by decide]
  simp only [pickExtra]
  rw [if_neg (show ¬(c2News1 ∉ [c2News1] ∧ c2News1 ∉ [c2News1]) from by decide)]
  rw [if_neg (show ¬((([] : List (Paper × ℚ)).length : Int) ≥ 1) from by decide)]
  rw [if_pos (show c2News2 ∉ [c2News1] ∧ c2News2 ∉ [c2News1] from by decide)]
  rw [if_pos (show ((([] : List (Paper × ℚ)) ++ [(c2News2, (123/200 : ℚ))]).length : Int) ≥ 1 from by decide)]
  rfl

/-- Full evaluation of `process_papers` on the two-news-item pool: the
quota pass collects the second news item, but the re-sort and re-truncation
restore the original top-1, so only the first item is returned. -/
theorem c2_process : processPapers c2Cfg 0 c2Papers = [c2News1] := by
  have hC : ((([c2News1] : List Paper).length : Int) < c2Cfg.MIN_NEWS_QUOTA) ∧
      ((!([(c2News1, (123/200 : ℚ)), (c2News2, 123/200)] :
        List (Paper × ℚ)).isEmpty) = true) := ⟨by decide, by decide⟩
  simp only [processPapers, c2_filterPapers_id, c2_rank, c2_slice, c2_filter_top,
    c2_filter_all, List.map_cons, List.map_nil]
  rw [if_neg (show ¬((c2Papers.isEmpty) = true) from by decide)]
  rw [if_pos hC]
  rw [c2_pick]
  rw [if_pos (show (!([(c2News2, (123/200 : ℚ))] : List (Paper × ℚ)).isEmpty) = true from by decide)]
  rw [show [(c2News1, (123/200 : ℚ))] ++ [(c2News2, (123/200 : ℚ))] =
    [(c2News1, 123/200), (c2News2, 123/200)] from rfl]
  rw [c2_sort, c2_slice]
  rfl

/-- C2 counterexample: with a daily cap of one and the default news quota
of two, a pool of two published-today `tech_news` items satisfies the
claim's hypotheses (the top-1 selection holds fewer than two news items
while the ranked pool holds two), yet `process_papers` returns a selection
with a single news item: the extra news collected by the quota pass is
sorted below the cap and truncated away again, so the quota is not met. -/
theorem C2_counterexample_quota_not_enforced :
    ((((pySliceTo c2Cfg.MAX_PAPERS_PER_DAY
        (rankPapers c2Cfg 0 (filterPapers c2Cfg 0 c2Papers))).filter
        (fun ps => isNewsSource ps.1.source)).length : Int) < c2Cfg.MIN_NEWS_QUOTA) ∧
    (c2Cfg.MIN_NEWS_QUOTA ≤
      (((rankPapers c2Cfg 0 (filterPapers c2Cfg 0 c2Papers)).filter
        (fun ps => isNewsSource ps.1.source)).length : Int)) ∧
    ¬(c2Cfg.MIN_NEWS_QUOTA ≤
      (((processPapers c2Cfg 0 c2Papers).filter
        (fun p => isNewsSource p.source)).length : Int)) := by
  refine ⟨?_, ?_, ?_⟩
  · rw [c2_filterPapers_id, c2_rank, c2_slice, c2_filter_top]
    decide
  · rw [c2_filterPapers_id, c2_rank, c2_filter_all]
    decide
  · rw [c2_process]
    decide

/-- C2 (amended): `process_papers` always returns a selection of length at
most `MAX_PAPERS_PER_DAY` (for a non-negative cap), but the `MIN_NEWS_QUOTA`
augmentation does not guarantee the presence of news items: the extra news
are appended, re-sorted by score and truncated back to the cap, which
restores the original top selection whenever the extras score no higher. -/
theorem C2_selection_capped (cfg : PipelineConfig) (now : Int) (papers : List Paper)
    (hcap : 0 ≤ cfg.MAX_PAPERS_PER_DAY) :
    ((processPapers cfg now papers).length : Int) ≤ cfg.MAX_PAPERS_PER_DAY := by
  have hmap : ∀ l : List (Paper × ℚ),
      (((pySliceTo cfg.MAX_PAPERS_PER_DAY l).map Prod.fst).length : Int) ≤
        cfg.MAX_PAPERS_PER_DAY := by
    intro l
    rw [List.length_map]
    unfold pySliceTo
    rw [if_pos hcap, List.length_take]
    omega
  simp only [processPapers]
  split
  · simpa using hcap
  · split
    · split
      · exact hmap _
      · exact hmap _
    · exact hmap _

/-- Witness for C2's amended theorem at the concrete configuration and pool. -/
theorem C2_selection_capped_witness :
    ((processPapers c2Cfg 0 c2Papers).length : Int) ≤ c2Cfg.MAX_PAPERS_PER_DAY :=
  C2_selection_capped c2Cfg 0 c2Papers (by decide)

/-! ## Claim C9: summarizer factory fallback and rule-based output shape -/

theorem mem_dropWhile_of_neg {p : Char → Bool} {c : Char} (hc : p c = false) :
    ∀ {l : Str}, c ∈ l → c ∈ l.dropWhile p := by
  intro l
  induction l with
  | nil => intro h; cases h
  | cons c0 t ih =>
      intro h
      rw [List.dropWhile_cons]
      by_cases h0 : p c0 = true
      · rw [if_pos h0]
        rcases List.mem_cons.mp h with he | hm
        · rw [he, h0] at hc
          cases hc
        · exact ih hm
      · rw [if_neg h0]
        exact h

theorem mem_pyStrip {c : Char} (hws : isWS c = false) {l : Str} (hc : c ∈ l) :
    c ∈ pyStrip l := by
  unfold pyStrip
  rw [List.mem_reverse]
  exact mem_dropWhile_of_neg hws (List.mem_reverse.mpr (mem_dropWhile_of_neg hws hc))

theorem splitFirstNE_eq {s : Char} {ss : Str} : ∀ {l pre rest : Str},
    splitFirstNE s ss l = some (pre, rest) → l = pre ++ (s :: ss) ++ rest := by
  intro l
  induction l with
  | nil => intro pre rest h; cases h
  | cons c0 t ih =>
      intro pre rest h
      simp only [splitFirstNE] at h
      by_cases hp : (s :: ss).isPrefixOf (c0 :: t) = true
      · rw [if_pos hp] at h
        obtain ⟨r, hr⟩ := (isPrefixOf_iff_exists _ _).mp hp
        injection hr with hr1 hr2
        cases h
        subst hr1
        subst hr2
        simp only [List.append_eq]
        rw [List.drop_left]
        simp
      · rw [if_neg hp] at h
        rcases ho : splitFirstNE s ss t with _ | ⟨p1, p2⟩
        · rw [ho] at h
          cases h
        · rw [ho, Option.map_some'] at h
          cases h
          rw [ih ho]
          simp

theorem splitFirst_eq {delim l pre rest : Str}
    (h : splitFirst delim l = some (pre, rest)) : l = pre ++ delim ++ rest := by
  cases delim with
  | nil => cases h
  | cons s ss => exact splitFirstNE_eq h

theorem mem_removeAllFuel {c s : Char} {ss : Str} (hc : c ∉ s :: ss) :
    ∀ (fuel : Nat) {l : Str}, c ∈ l → c ∈ removeAllFuel s ss fuel l := by
  intro fuel
  induction fuel with
  | zero => intro l h; simpa only [removeAllFuel] using h
  | succ fuel ih =>
      intro l h
      cases l with
      | nil => cases h
      | cons c0 t =>
          simp only [removeAllFuel]
          by_cases hp : (s :: ss).isPrefixOf (c0 :: t) = true
          · rw [if_pos hp]
            obtain ⟨r, hr⟩ := (isPrefixOf_iff_exists _ _).mp hp
            injection hr with hr1 hr2
            subst hr2
            simp only [List.append_eq]
            rw [List.drop_left]
            rcases List.mem_cons.mp h with he | hm
            · exfalso
              apply hc
              rw [he, ← hr1]
              exact List.mem_cons_self _ _
            · rcases List.mem_append.mp hm with h1 | h2
              · exact absurd (List.mem_cons_of_mem _ h1) hc
              · exact ih h2
          · rw [if_neg hp]
            rcases List.mem_cons.mp h with he | hm
            · exact he ▸ List.mem_cons_self _ _
            · exact List.mem_cons_of_mem _ (ih hm)

theorem mem_removeAll {c : Char} {sub t : Str} (hc : c ∉ sub) (h : c ∈ t) :
    c ∈ removeAll sub t := by
  cases sub with
  | nil => exact h
  | cons s ss => exact mem_removeAllFuel hc _ h

theorem mem_subPairFuel {c : Char} {delim : Str} (hc : c ∉ delim) :
    ∀ (fuel : Nat) {l : Str}, c ∈ l → c ∈ subPairFuel delim fuel l := by
  intro fuel
  induction fuel with
  | zero => intro l h; simpa only [subPairFuel] using h
  | succ fuel ih =>
      intro l h
      rcases h1 : splitFirst delim l with _ | ⟨pre, rest⟩
      · simp only [subPairFuel, h1]
        exact h
      · rcases h2 : splitFirst delim rest with _ | ⟨mid, after⟩
        · simp only [subPairFuel, h1, h2]
          exact h
        · simp only [subPairFuel, h1, h2]
          have hl := splitFirst_eq h1
          have hr := splitFirst_eq h2
          have hsplit : c ∈ pre ∨ c ∈ mid ∨ c ∈ after := by
            rw [hl, hr] at h
            simp only [List.mem_append] at h
            tauto
          rcases hsplit with h3 | h3 | h3
          · exact List.mem_append.mpr (Or.inl (List.mem_append.mpr (Or.inl h3)))
          · exact List.mem_append.mpr (Or.inl (List.mem_append.mpr (Or.inr h3)))
          · exact List.mem_append.mpr (Or.inr (ih h3))

theorem mem_subPair {c : Char} {delim l : Str} (hc : c ∉ delim) (h : c ∈ l) :
    c ∈ subPair delim l :=
  mem_subPairFuel hc _ h

theorem mem_pyWordsCore {c : Char} (hw : isWS c = false) :
    ∀ {l : Str}, c ∈ l →
      c ∈ (pyWordsCore l).1 ∨ ∃ w, w ∈ (pyWordsCore l).2 ∧ c ∈ w := by
  intro l
  induction l with
  | nil => intro h; cases h
  | cons c0 t ih =>
      intro h
      have hstep : pyWordsCore (c0 :: t) = wordsStep c0 (pyWordsCore t) := rfl
      rw [hstep]
      simp only [wordsStep]
      rcases List.mem_cons.mp h with he | hm
      · subst he
        rw [if_neg (by simp [hw])]
        exact Or.inl (List.mem_cons_self _ _)
      · rcases ih hm with h1 | ⟨w, hw1, hw2⟩
        · by_cases h0 : isWS c0 = true
          · rw [if_pos h0]
            have hne : (pyWordsCore t).1.isEmpty = false :=
              isEmpty_false_of_ne (List.ne_nil_of_mem h1)
            rw [hne]
            simp only [Bool.false_eq_true, if_false]
            exact Or.inr ⟨(pyWordsCore t).1, List.mem_cons_self _ _, h1⟩
          · rw [if_neg h0]
            exact Or.inl (List.mem_cons_of_mem _ h1)
        · by_cases h0 : isWS c0 = true
          · rw [if_pos h0]
            by_cases hne : (pyWordsCore t).1.isEmpty = true
            · rw [if_pos hne]
              exact Or.inr ⟨w, hw1, hw2⟩
            · rw [if_neg hne]
              exact Or.inr ⟨w, List.mem_cons_of_mem _ hw1, hw2⟩
          · rw [if_neg h0]
            exact Or.inr ⟨w, hw1, hw2⟩

theorem mem_pyWords {c : Char} (hw : isWS c = false) {l : Str} (hc : c ∈ l) :
    ∃ w, w ∈ pyWords l ∧ c ∈ w := by
  rcases mem_pyWordsCore hw hc with h1 | ⟨w, hw1, hw2⟩
  · have hne : (pyWordsCore l).1.isEmpty = false :=
      isEmpty_false_of_ne (List.ne_nil_of_mem h1)
    refine ⟨(pyWordsCore l).1, ?_, h1⟩
    simp only [pyWords, hne, Bool.false_eq_true, if_false]
    exact List.mem_cons_self _ _
  · refine ⟨w, ?_, hw2⟩
    simp only [pyWords]
    by_cases hne : (pyWordsCore l).1.isEmpty = true
    · rw [if_pos hne]
      exact hw1
    · rw [if_neg hne]
      exact List.mem_cons_of_mem _ hw1

theorem mem_joinWords {c : Char} {w : Str} :
    ∀ {ws : List Str}, w ∈ ws → c ∈ w → c ∈ joinWords ws := by
  intro ws
  induction ws with
  | nil => intro h _; cases h
  | cons w0 rest ih =>
      intro hmem hc
      cases rest with
      | nil =>
          rcases List.mem_cons.mp hmem with he | hm
          · exact (he ▸ hc : c ∈ w0)
          · cases hm
      | cons w1 rest2 =>
          show c ∈ w0 ++ ' ' :: joinWords (w1 :: rest2)
          rcases List.mem_cons.mp hmem with he | hm
          · exact List.mem_append.mpr (Or.inl (he ▸ hc))
          · exact List.mem_append.mpr
              (Or.inr (List.mem_cons_of_mem _ (ih hm hc)))

theorem mem_collapse {c : Char} (hw : isWS c = false) {l : Str} (hc : c ∈ l) :
    c ∈ collapse l := by
  obtain ⟨w, h1, h2⟩ := mem_pyWords hw hc
  exact mem_joinWords h1 h2

theorem pyWords_ne_nil {c : Char} (hw : isWS c = false) {l : Str} (hc : c ∈ l) :
    pyWords l ≠ [] := by
  obtain ⟨w, h1, _⟩ := mem_pyWords hw hc
  exact List.ne_nil_of_mem h1

theorem mem_foldl_strip {c : Char} (hw : isWS c = false) :
    ∀ (ps : List Str), (∀ p ∈ ps, c ∉ p) → ∀ {acc : Str}, c ∈ acc →
      c ∈ ps.foldl (fun t p => pyStrip (removeAll p t)) acc := by
  intro ps
  induction ps with
  | nil => intro _ acc h; exact h
  | cons p ps2 ih =>
      intro hph acc h
      rw [List.foldl_cons]
      exact ih (fun q hq => hph q (List.mem_cons_of_mem _ hq))
        (mem_pyStrip hw (mem_removeAll (hph p (List.mem_cons_self _ _)) h))

/-- A non-whitespace character that is no markdown marker and occurs in no
unwanted phrase survives `_clean_text`. -/
theorem mem_sumCleanText {c : Char} (hw : isWS c = false)
    (h2 : c ∉ "**".toList) (h1 : c ∉ "*".toList) (hb : c ∉ "`".toList)
    (hph : ∀ p ∈ unwantedPhrases, c ∉ p) {t : Str} (hc : c ∈ t) :
    c ∈ sumCleanText t := by
  have hne : t.isEmpty = false := isEmpty_false_of_ne (List.ne_nil_of_mem hc)
  simp only [sumCleanText, hne, Bool.false_eq_true, if_false]
  exact mem_foldl_strip hw unwantedPhrases hph
    (mem_subPair hb (mem_subPair h1 (mem_subPair h2 (mem_collapse hw hc))))

/-- The fixed second part of every template summary contains `จ`. -/
theorem mem_cho_summary (title abstract : Str) (authors : List Str) (source : Str) :
    'จ' ∈ createTemplateSummary title abstract authors source := by
  simp only [createTemplateSummary]
  refine List.mem_append.mpr (Or.inl ?_)
  exact mem_joinWords
    (show ("ได้นำเสนองานวิจัยเรื่อง \"".toList ++ title ++ "\"".toList) ∈ _ from by simp)
    (List.mem_append.mpr (Or.inl (List.mem_append.mpr (Or.inl (by decide)))))

/-- Both branches of the template TL;DR open with a fixed phrase
containing `จ`. -/
theorem mem_cho_tldr (title abstract : Str) : 'จ' ∈ createTemplateTldr title abstract := by
  simp only [createTemplateTldr]
  by_cases hk : (!(extractKeyResult abstract).isEmpty) = true
  · rw [if_pos hk]
    exact List.mem_append.mpr (Or.inl (List.mem_append.mpr (Or.inl
      (List.mem_append.mpr (Or.inl (by decide))))))
  · rw [if_neg hk]
    exact List.mem_append.mpr (Or.inl (List.mem_append.mpr (Or.inl (by decide))))

/-- C9: requesting the `openai` summarizer mode with no API keys configured
yields the rule-based summarizer for every combination of library
availability flags; and for every well-formed paper (present abstract,
non-empty title and authors) the rule-based summary and TL;DR are non-empty
and the word count is positive. -/
theorem C9_factory_fallback_and_nonempty :
    (∀ oa aa : Bool,
      createSummarizer oa aa (some "openai".toList) none none =
        SummarizerKind.ruleBased) ∧
    (∀ (p : Paper) (a : Str), p.abstract = some a → p.title ≠ [] → p.authors ≠ [] →
      (ruleBasedSummarize p).summary_thai ≠ [] ∧
      (ruleBasedSummarize p).tldr_thai ≠ [] ∧
      0 < (ruleBasedSummarize p).word_count) := by
  constructor
  · intro oa aa
    cases oa <;> cases aa <;> decide
  · intro p a ha htitle hauth
    have hw : isWS 'จ' = false := by decide
    have hph : ∀ q ∈ unwantedPhrases, 'จ' ∉ q := by decide
    have h2 : 'จ' ∉ "**".toList := by decide
    have h1 : 'จ' ∉ "*".toList := by decide
    have hb : 'จ' ∉ "`".toList := by decide
    have hsum : 'จ' ∈ sumCleanText
        (createTemplateSummary p.title a (p.authors.take 3) p.source) :=
      mem_sumCleanText hw h2 h1 hb hph
        (mem_cho_summary p.title a (p.authors.take 3) p.source)
    have htl : 'จ' ∈ sumCleanText (createTemplateTldr p.title a) :=
      mem_sumCleanText hw h2 h1 hb hph (mem_cho_tldr p.title a)
    have hr : ruleBasedSummarize p =
        { summary_thai := sumCleanText
            (createTemplateSummary p.title a (p.authors.take 3) p.source)
          tldr_thai := sumCleanText (createTemplateTldr p.title a)
          word_count := (pyWords (sumCleanText
            (createTemplateSummary p.title a (p.authors.take 3) p.source))).length } := by
      simp only [ruleBasedSummarize, ha]
    rw [hr]
    exact ⟨List.ne_nil_of_mem hsum, List.ne_nil_of_mem htl,
      List.length_pos.mpr (pyWords_ne_nil hw hsum)⟩

/-- Witness for C9 at concrete inputs: both availability flags set, and the
first concrete news item as the well-formed paper. -/
theorem C9_factory_fallback_witness :
    createSummarizer true true (some "openai".toList) none none =
      SummarizerKind.ruleBased ∧
    ((ruleBasedSummarize c2News1).summary_thai ≠ [] ∧
      (ruleBasedSummarize c2News1).tldr_thai ≠ [] ∧
      0 < (ruleBasedSummarize c2News1).word_count) :=
  ⟨C9_factory_fallback_and_nonempty.1 true true,
   C9_factory_fallback_and_nonempty.2 c2News1 c2Abstract rfl (by decide) (by decide)⟩

end LLMNews
